import Mathlib

set_option linter.unusedVariables false
set_option maxRecDepth 100000

/-!
Verification of the Clinical-Test-Report service (src/app.py).

Python strings are embedded as `List Char` (sequences of Unicode code
points).  The Python string primitives the program uses (`str.split`,
`str.splitlines`, `str.strip`, `str.replace`, `str.lower`,
`os.path.splitext`, `in`, `startswith`) are modelled below, faithful to
CPython semantics on the inputs the program feeds them.  Floating point
quantities (cursor positions, estimated heights) are modelled as exact
rationals; the external font engine's `get_string_width` is an
uninterpreted parameter `sw : List Char → ℚ`, and the number of wrapped
lines produced by FPDF `multi_cell` is an uninterpreted per-call count.
-/

namespace ClinicalReport

/-- Python `str.strip(chars)` generalised: drop characters satisfying `p`
from both ends. -/
def pystripBy (p : Char → Bool) (s : List Char) : List Char :=
  ((s.dropWhile p).reverse.dropWhile p).reverse

/-- Python `str.strip()` with no argument: strip whitespace from both
ends.  (CPython strips all Unicode whitespace; the program's data only
ever carries `' '`, `'\t'`, `'\r'`, `'\n'` at the ends, which is exactly
`Char.isWhitespace`.) -/
def pystrip (s : List Char) : List Char :=
  pystripBy Char.isWhitespace s

/-- Python `str.strip('\x22')`: strip double-quote characters from both
ends (used on the disclaimer section). -/
def stripQuotes (s : List Char) : List Char :=
  pystripBy (· == '"') s

/-- Unicode line boundaries recognised by Python `str.splitlines`
(besides the two-character boundary `"\r\n"`, handled separately). -/
def isLineBoundary (c : Char) : Bool :=
  c == '\n' || c == '\r' || c == '\x0b' || c == '\x0c' ||
  c == '\x1c' || c == '\x1d' || c == '\x1e' || c == '\x85' ||
  c == '\u2028' || c == '\u2029'

/-- Worker for `pysplitlines`; `acc` holds the current (reversed) line. -/
def splitlinesAux (acc : List Char) : List Char → List (List Char)
  | [] => if acc.isEmpty then [] else [acc.reverse]
  | '\r' :: '\n' :: rest => acc.reverse :: splitlinesAux [] rest
  | c :: rest =>
    if isLineBoundary c then acc.reverse :: splitlinesAux [] rest
    else splitlinesAux (c :: acc) rest

/-- Python `str.splitlines()`: split at line boundaries; a trailing
boundary does not produce a trailing empty line. -/
def pysplitlines (s : List Char) : List (List Char) :=
  splitlinesAux [] s

/-- Worker for `pysplit`; `acc` holds the current (reversed) chunk and
`skip` the number of already-matched separator characters still to be
consumed (keeping the recursion structural, hence kernel-computable).
At a position with `skip = 0`, if the separator starts here, close the
chunk and start skipping it; otherwise advance one character. -/
def pysplitAux (sep : List Char) : List Char → ℕ → List Char → List (List Char)
  | acc, _, [] => [acc.reverse]
  | acc, skip + 1, _ :: rest => pysplitAux sep acc skip rest
  | acc, 0, c :: rest =>
    if sep.isPrefixOf (c :: rest) then
      acc.reverse :: pysplitAux sep [] (sep.length - 1) rest
    else
      pysplitAux sep (c :: acc) 0 rest

/-- Python `str.split(sep)` for a non-empty separator: left-to-right,
non-overlapping occurrences of `sep` delimit the chunks.  (Python raises
`ValueError` on an empty separator; the program only splits on non-empty
literal markers.) -/
def pysplit (sep s : List Char) : List (List Char) :=
  pysplitAux sep [] 0 s

/-- Worker for `pysplit1`. -/
def pysplit1Aux (sep acc : List Char) : List Char → List (List Char)
  | [] => [acc.reverse]
  | c :: rest =>
    if sep.isPrefixOf (c :: rest) then
      [acc.reverse, rest.drop (sep.length - 1)]
    else
      pysplit1Aux sep (c :: acc) rest

/-- Python `str.split(sep, 1)`: split at the first occurrence only. -/
def pysplit1 (sep s : List Char) : List (List Char) :=
  pysplit1Aux sep [] s

/-- Python `str.replace(old, new)` for non-empty `old`: replace each
left-to-right non-overlapping occurrence. -/
def pyreplace (old new s : List Char) : List Char :=
  List.intercalate new (pysplit old s)

/-- Python `str.rfind(c)` for a single character: index of the last
occurrence, `none` when absent (Python returns `-1`). -/
def pyrfind (c : Char) (s : List Char) : Option ℕ :=
  s.reverse.indexOf? c |>.map (fun i => s.length - 1 - i)

/-- Python `str.lower()`.  The program lowercases file extensions, which
are ASCII, so ASCII lowercasing is faithful here. -/
def pylower (s : List Char) : List Char :=
  s.map Char.toLower

/-- `os.path.splitext(p)` (CPython `genericpath._splitext` with `'/'` as
the path separator): the extension starts at the last dot, unless every
character of the basename before that dot is itself a dot. -/
def pysplitext (p : List Char) : List Char × List Char :=
  match pyrfind '.' p with
  | none => (p, [])
  | some d =>
    let start := match pyrfind '/' p with
      | none => 0
      | some s => s + 1
    if d < start then (p, [])
    else if (List.range (d - start)).any (fun k => p.getD (start + k) '.' != '.') then
      (p.take d, p.drop d)
    else (p, [])

/-- Python `needle in hay` on strings: contiguous-substring test. -/
def pyin (needle hay : List Char) : Bool :=
  decide (needle <:+: hay)

/-- `is_arabic` (src/app.py line 41): true iff some code point lies in
the Arabic block U+0600–U+06FF. -/
def is_arabic (text : List Char) : Bool :=
  text.any (fun c => decide ('\u0600' ≤ c) && decide (c ≤ '\u06FF'))

/-! ## Section Splitter (src/app.py lines 237–295)

The endpoint slices the model response `rsp` on four literal markers.
Python `lst[0]` on a `split` result never fails (`split` is never empty);
Python `lst[1]` raises `IndexError` when the separator is absent, which
the embedding models as `Option`. -/

def marker2 : List Char := "**2. Recommendations**".toList

def marker3 : List Char := "**3. Summary**".toList

def marker4 : List Char := "**4. Final Score**".toList

def marker5 : List Char := "**5. Medical Disclaimer**".toList

/-- `rsp.split("**2. Recommendations**")[0]` (line 242). -/
def results_section (rsp : List Char) : List Char :=
  (pysplit marker2 rsp).headD []

/-- `rsp.split("**2. Recommendations**")[1].split("**3. Summary**")[0]`
(line 257). -/
def rec_section (rsp : List Char) : Option (List Char) :=
  ((pysplit marker2 rsp)[1]?).map fun t => (pysplit marker3 t).headD []

/-- `rsp.split("**3. Summary**")[1].split("**4. Final Score**")[0]`
(line 275), before the final `.strip()`. -/
def summaryRaw (rsp : List Char) : Option (List Char) :=
  ((pysplit marker3 rsp)[1]?).map fun t => (pysplit marker4 t).headD []

/-- `summary` (line 275): the raw slice stripped. -/
def summary (rsp : List Char) : Option (List Char) :=
  (summaryRaw rsp).map pystrip

/-- `rsp.split("**4. Final Score**")[1].split("**5. Medical Disclaimer**")[0]`
(line 283), before `.strip()` and the `Metric:` removal. -/
def scoreRaw (rsp : List Char) : Option (List Char) :=
  ((pysplit marker4 rsp)[1]?).map fun t => (pysplit marker5 t).headD []

/-- `score_text` (lines 283–284): stripped, then `.replace("Metric:", "")`. -/
def score_text (rsp : List Char) : Option (List Char) :=
  (scoreRaw rsp).map fun s => pyreplace ("Metric:".toList) [] (pystrip s)

/-- `rsp.split("**5. Medical Disclaimer**")[1]` (line 292), before
normalization. -/
def disclaimerRaw (rsp : List Char) : Option (List Char) :=
  (pysplit marker5 rsp)[1]?

/-- `disclaimer` (line 292): `.strip().strip('\x22')`. -/
def disclaimer (rsp : List Char) : Option (List Char) :=
  (disclaimerRaw rsp).map fun s => stripQuotes (pystrip s)

/-! ## Test-record extraction (lines 243–250) -/

structure TestRecord where
  indicator : List Char
  result : List Char
  normal_range : List Char
  comment : List Char
  deriving DecidableEq, Repr

def indicatorTok : List Char := "Indicator:".toList

def yourResultTok : List Char := "Your Result:".toList

def normalRangeTok : List Char := "Normal Range:".toList

def commentTok : List Char := "Comment:".toList

/-- `next((l.split(":", 1)[1].strip() for l in lines if needle in l), "")`:
the first line containing `needle` yields the text after that line's
first colon, stripped; no such line yields the empty string.  (Every
`needle` passed in contains a colon, so on a matching line the Python
index `[1]` always exists; `getD` is observationally equal there.) -/
def fieldOf (needle : List Char) (lines : List (List Char)) : List Char :=
  match lines.find? (fun l => pyin needle l) with
  | some l => pystrip ((pysplit1 [':'] l).getD 1 [])
  | none => []

/-- One loop body of lines 244–250: `lines = test.strip().splitlines()`,
`indicator = lines[0].strip()`, then the three field scans.  `lines[0]`
raises `IndexError` when the stripped chunk is empty (`none`). -/
def parseTest (test : List Char) : Option TestRecord :=
  match pysplitlines (pystrip test) with
  | [] => none
  | l0 :: rest =>
    some { indicator := pystrip l0
           result := fieldOf yourResultTok (l0 :: rest)
           normal_range := fieldOf normalRangeTok (l0 :: rest)
           comment := fieldOf commentTok (l0 :: rest) }

/-- `results_section.split("Indicator:")[1:]` (line 243). -/
def testsOf (sec : List Char) : List (List Char) :=
  (pysplit indicatorTok sec).tail

/-- The rendering loop over chunks: each successfully parsed record is
drawn immediately; a raising chunk aborts the rest of the loop (the
enclosing `except` swallows it), keeping the records already drawn.
Returns the drawn records and whether the loop raised. -/
def extractTests : List (List Char) → List TestRecord × Bool
  | [] => ([], false)
  | t :: ts =>
    match parseTest t with
    | none => ([], true)
    | some r => ((r :: (extractTests ts).1), (extractTests ts).2)

/-! ## Bullet extraction (lines 257–266) -/

def improveTok : List Char := "To Improve".toList

def maintainTok : List Char := "To Maintain".toList

inductive Bucket where
  | improve
  | maintain
  deriving DecidableEq, Repr

/-- The loop of lines 259–266.  `imp`/`mnt` are the two accumulated
bucket lists and `cur` the Python `current` alias (`None` before the
first marker line).  Each raw line is stripped first; a line containing
`"To Improve"` (tested before `"To Maintain"`, which is tested before the
bullet test, exactly as the `if`/`elif` chain orders them) switches the
bucket; `line.startswith("*")` with an active bucket appends
`line[1:].strip()`; everything else is a no-op. -/
def recLoop : List (List Char) → List (List Char) → List (List Char) →
    Option Bucket → List (List Char) × List (List Char)
  | [], imp, mnt, _ => (imp, mnt)
  | l :: rest, imp, mnt, cur =>
    let line := pystrip l
    if pyin improveTok line then recLoop rest imp mnt (some .improve)
    else if pyin maintainTok line then recLoop rest imp mnt (some .maintain)
    else if ['*'].isPrefixOf line then
      match cur with
      | some .improve => recLoop rest (imp ++ [pystrip (line.drop 1)]) mnt cur
      | some .maintain => recLoop rest imp (mnt ++ [pystrip (line.drop 1)]) cur
      | none => recLoop rest imp mnt cur
    else recLoop rest imp mnt cur

/-- `to_improve, to_maintain` after the whole loop, starting from empty
buckets and no active bucket. -/
def recExtract (ls : List (List Char)) : List (List Char) × List (List Char) :=
  recLoop ls [] [] none

/-! ## The rendered document, as the sequence of drawing calls

`buildBlocks` records, per section, the `FinalPerfectPDF` method calls
the endpoint issues (lines 239–295).  Each of the five `try` blocks
first draws its heading with `add_section`, then attempts the slicing;
a raised `IndexError` is swallowed by that block's `except`, so a failed
slice contributes the heading and nothing else. -/

inductive Block where
  | heading (title : List Char)
  | testResult (r : TestRecord)
  | bullets (title : List Char) (items : List (List Char))
  | paragraph (text : List Char)
  deriving DecidableEq, Repr

def h1Title : List Char := "1. Analysis of Your Results".toList

def h2Title : List Char := "2. Recommendations".toList

def h3Title : List Char := "3. Summary".toList

def h4Title : List Char := "4. Final Score".toList

def h5Title : List Char := "5. Medical Disclaimer".toList

def improveTitle : List Char := "To Improve:".toList

def maintainTitle : List Char := "To Maintain:".toList

/-- Lines 240–252: heading, then one `add_test_result` per parsed chunk
until the loop raises (if it does). -/
def sec1Blocks (rsp : List Char) : List Block :=
  Block.heading h1Title ::
    ((extractTests (testsOf (results_section rsp))).1.map Block.testResult)

/-- Lines 255–270: heading, then — when the slicing succeeds — the two
`add_bullets` calls. -/
def sec2Blocks (rsp : List Char) : List Block :=
  Block.heading h2Title ::
    match rec_section rsp with
    | none => []
    | some sec =>
      [Block.bullets improveTitle (recExtract (pysplitlines sec)).1,
       Block.bullets maintainTitle (recExtract (pysplitlines sec)).2]

/-- Lines 273–278. -/
def sec3Blocks (rsp : List Char) : List Block :=
  Block.heading h3Title ::
    match summary rsp with
    | none => []
    | some s => [Block.paragraph s]

/-- Lines 281–287. -/
def sec4Blocks (rsp : List Char) : List Block :=
  Block.heading h4Title ::
    match score_text rsp with
    | none => []
    | some s => [Block.paragraph s]

/-- Lines 290–295. -/
def sec5Blocks (rsp : List Char) : List Block :=
  Block.heading h5Title ::
    match disclaimer rsp with
    | none => []
    | some s => [Block.paragraph s]

def buildBlocks (rsp : List Char) : List Block :=
  sec1Blocks rsp ++ sec2Blocks rsp ++ sec3Blocks rsp ++ sec4Blocks rsp ++
    sec5Blocks rsp

/-! ## Paginated Document Writer state (src/app.py lines 48–152)

Cursor positions are rationals (exact model of the float arithmetic).
`sw` stands for the font engine's `get_string_width`; `wraps`/`wrap`
stand for the number of lines `multi_cell` wraps its text into — both
are external font-metric quantities, passed as parameters. -/

structure PDFState where
  page : ℕ
  y : ℚ
  deriving DecidableEq, Repr

/-- FPDF default top margin (1 cm): `get_y()` right after `add_page()`. -/
def tMargin : ℚ := 10

/-- `__init__` (lines 49–58): auto page break off, one page added. -/
def freshPDF : PDFState := ⟨1, tMargin⟩

/-- `self.add_page()`. -/
def add_page (st : PDFState) : PDFState := ⟨st.page + 1, tMargin⟩

/-- `check_space` (lines 60–62). -/
def check_space (st : PDFState) (needed : ℚ) : PDFState :=
  if st.y + needed > 260 then add_page st else st

/-- `add_section` (lines 87–94): `check_space(20)`, `ln(2)`, then a
`cell(0, 10, title, ln=True)`; fonts and colors do not move the cursor. -/
def add_section (st : PDFState) (title : List Char) : PDFState :=
  let st := check_space st 20
  ⟨st.page, st.y + 2 + 10⟩

def indicatorLabel : List Char := "Indicator: ".toList

def resultLabel : List Char := "Result: ".toList

def normalRangeLabel : List Char := "Normal Range: ".toList

/-- `h1` (line 104): `get_string_width(f"Indicator: {indicator}") / 190 * 8 + 8`. -/
def cardH1 (sw : List Char → ℚ) (indicator : List Char) : ℚ :=
  sw (indicatorLabel ++ indicator) / 190 * 8 + 8

/-- `h2` (line 106). -/
def cardH2 (sw : List Char → ℚ) (result : List Char) : ℚ :=
  sw (resultLabel ++ result) / 190 * 7 + 7

/-- `h3` (line 107). -/
def cardH3 (sw : List Char → ℚ) (normal_range : List Char) : ℚ :=
  sw (normalRangeLabel ++ normal_range) / 190 * 7 + 7

/-- `h4` (line 108): `len(comment) / 80 * 7 + 7` — character count, not
string width. -/
def cardH4 (comment : List Char) : ℚ :=
  (comment.length : ℚ) / 80 * 7 + 7

/-- `total_height` (line 109). -/
def cardTotalHeight (sw : List Char → ℚ)
    (indicator result normal_range comment : List Char) : ℚ :=
  cardH1 sw indicator + cardH2 sw result + cardH3 sw normal_range +
    cardH4 comment + 6

/-- `add_test_result` (lines 97–128): `check_space(40)`, remember
`y_start`, draw the card, and finish with
`set_y(y_start + total_height + 2)` — the final cursor is set
explicitly, so the inner `multi_cell`s do not affect it. -/
def add_test_result (sw : List Char → ℚ) (st : PDFState)
    (indicator result normal_range comment : List Char) : PDFState :=
  let st := check_space st 40
  ⟨st.page, st.y + cardTotalHeight sw indicator result normal_range comment + 2⟩

/-- `estimated_height` (line 132): `10 + len(items) * 8 + 4`. -/
def bulletsEstHeight (items : List (List Char)) : ℚ :=
  10 + (items.length : ℚ) * 8 + 4

/-- `add_bullets` (lines 130–143): inline overflow check against the
estimate, `cell(0, 10, title, ln=True)`, one `multi_cell(0, 8, …)` per
item (`wraps` lists each item's wrapped line count), `ln(2)`. -/
def add_bullets (st : PDFState) (title : List Char)
    (items : List (List Char)) (wraps : List ℕ) : PDFState :=
  let st := if st.y + bulletsEstHeight items > 260 then add_page st else st
  ⟨st.page, st.y + 10 + 8 * (wraps.sum : ℚ) + 2⟩

/-- `add_paragraph` (lines 145–152): `check_space(10)`, then one
`multi_cell(0, 8, …)` over `wrap` wrapped lines. -/
def add_paragraph (st : PDFState) (text : List Char) (wrap : ℕ) : PDFState :=
  let st := check_space st 10
  ⟨st.page, st.y + 8 * (wrap : ℚ)⟩

/-! ## The upload gate (lines 158–315) -/

def allowedExts : List (List Char) :=
  [".pdf".toList, ".jpg".toList, ".jpeg".toList, ".png".toList]

inductive Ev where
  | model_call
  deriving DecidableEq, Repr

/-- Endpoint control flow around the generative call.  The extension
check (lines 162–164) runs first; on an unsupported extension it raises
`HTTPException(400)`, but that raise happens inside the enclosing `try`,
and the catch-all `except Exception` (lines 307–312) catches it
(FastAPI's `HTTPException` subclasses `Exception`) and re-raises
`HTTPException(500, "An error occurred: …")` — so the client receives
status 500, and no model call is made (no `Ev.model_call` in the trace).
On an allowed extension the model is called and its response text is
rendered into the document blocks. -/
def analyze_report (filename rsp : List Char) : List Ev × Except ℕ (List Block) :=
  if (pylower (pysplitext filename).2) ∈ allowedExts then
    ([Ev.model_call], Except.ok (buildBlocks rsp))
  else
    ([], Except.error 500)

/-! ## Occurrence machinery for `pysplit` -/

/-- `pat` occurs in `s` starting at index `i`. -/
def occursAt (pat s : List Char) (i : ℕ) : Bool :=
  pat.isPrefixOf (s.drop i)

/-- `pat` occurs in `s` exactly once, at index `p`.  (Bounded form, so
that concrete instances are decidable.) -/
def uniqueOccAt (pat s : List Char) (p : ℕ) : Prop :=
  ∀ i, i < s.length → (occursAt pat s i = true ↔ i = p)

/-- `pat` occurs nowhere in `s` (bounded form). -/
def absentFrom (pat s : List Char) : Prop :=
  ∀ i, i < s.length → occursAt pat s i = false

instance (pat s : List Char) (p : ℕ) : Decidable (uniqueOccAt pat s p) := by
  unfold uniqueOccAt; infer_instance

instance (pat s : List Char) : Decidable (absentFrom pat s) := by
  unfold absentFrom; infer_instance

theorem occursAt_zero (pat s : List Char) :
    occursAt pat s 0 = pat.isPrefixOf s := rfl

theorem occursAt_cons (pat : List Char) (c : Char) (s : List Char) (i : ℕ) :
    occursAt pat (c :: s) (i + 1) = occursAt pat s i := rfl

theorem occursAt_of_ge (pat s : List Char) (i : ℕ) (hpat : pat ≠ [])
    (h : s.length ≤ i) : occursAt pat s i = false := by
  unfold occursAt
  rw [List.drop_eq_nil_of_le h]
  cases pat with
  | nil => exact absurd rfl hpat
  | cons c cs => rfl

theorem occursAt_append_right (pat P R : List Char) (i : ℕ) :
    occursAt pat (P ++ R) (P.length + i) = occursAt pat R i := by
  unfold occursAt
  rw [List.drop_append i]

/-- Everywhere-false occurrence from the bounded form. -/
theorem absentFrom_all (pat s : List Char) (hpat : pat ≠ [])
    (h : absentFrom pat s) : ∀ i, occursAt pat s i = false := by
  intro i
  by_cases hi : i < s.length
  · exact h i hi
  · exact occursAt_of_ge pat s i hpat (le_of_not_lt hi)

/-- A unique occurrence at `p` means no occurrence anywhere else. -/
theorem uniqueOccAt_elsewhere (pat s : List Char) (p : ℕ) (hpat : pat ≠ [])
    (h : uniqueOccAt pat s p) : ∀ i, i ≠ p → occursAt pat s i = false := by
  intro i hip
  by_cases hi : i < s.length
  · rcases Bool.eq_false_or_eq_true (occursAt pat s i) with ht | hf
    · exact absurd ((h i hi).mp ht) hip
    · exact hf
  · exact occursAt_of_ge pat s i hpat (le_of_not_lt hi)

/-- A unique occurrence at the designated spot is an actual occurrence. -/
theorem uniqueOccAt_self (pat s : List Char) (p : ℕ) (hpat : pat ≠ [])
    (h : uniqueOccAt pat s p) (hp : p < s.length) :
    occursAt pat s p = true := by
  rcases Bool.eq_false_or_eq_true (occursAt pat s p) with ht | hf
  · exact ht
  · exact absurd ((h p hp).mpr rfl) (by simp [hf])

/-- Transfer a unique occurrence through an append on the left. -/
theorem uniqueOccAt_suffix (pat P R : List Char) (p : ℕ)
    (hpat : pat ≠ []) (h : uniqueOccAt pat (P ++ R) (P.length + p)) :
    uniqueOccAt pat R p := by
  intro i hi
  have hlen : P.length + i < (P ++ R).length := by
    rw [List.length_append]; omega
  have := h (P.length + i) hlen
  rw [occursAt_append_right] at this
  constructor
  · intro ht
    have := this.mp ht
    omega
  · intro hip
    exact this.mpr (by omega)

/-- Transfer absence through an append on the left. -/
theorem absentFrom_suffix (pat P R : List Char)
    (hpat : pat ≠ []) (h : absentFrom pat (P ++ R)) :
    absentFrom pat R := by
  intro i hi
  have := absentFrom_all pat (P ++ R) hpat h (P.length + i)
  rw [occursAt_append_right] at this
  exact this

/-! ## Evaluation lemmas for `pysplit` -/

/-- Skipping `k` characters without testing equals dropping them. -/
theorem pysplitAux_skip (sep acc : List Char) :
    ∀ (s : List Char) (k : ℕ),
      pysplitAux sep acc k s = pysplitAux sep acc 0 (s.drop k) := by
  intro s
  induction s with
  | nil => intro k; cases k <;> rfl
  | cons c rest ih =>
    intro k
    cases k with
    | zero => rfl
    | succ k2 =>
      show pysplitAux sep acc k2 rest = _
      rw [ih k2]
      rfl

/-- If `sep` occurs nowhere in `s`, the splitter scans to the end. -/
theorem pysplitAux_no_occ (sep : List Char) (s : List Char)
    (h : ∀ i, occursAt sep s i = false) :
    ∀ acc, pysplitAux sep acc 0 s = [acc.reverse ++ s] := by
  induction s with
  | nil => intro acc; simp [pysplitAux]
  | cons c rest ih =>
    intro acc
    have h0 := h 0
    rw [occursAt_zero] at h0
    simp only [pysplitAux]
    rw [if_neg (by simp [h0])]
    rw [ih (fun i => h (i + 1)) (c :: acc)]
    simp

/-- If the first occurrence of `sep` in `pre ++ sep ++ rest` is the
explicit one (no occurrence inside the first `pre.length` positions),
the splitter closes the chunk `pre` there and continues on `rest`. -/
theorem pysplitAux_found (sep : List Char) (hsep : sep ≠ []) :
    ∀ pre rest : List Char,
      (∀ i, i < pre.length → occursAt sep (pre ++ sep ++ rest) i = false) →
      ∀ acc, pysplitAux sep acc 0 (pre ++ sep ++ rest) =
        (acc.reverse ++ pre) :: pysplit sep rest := by
  intro pre
  induction pre with
  | nil =>
    intro rest h acc
    obtain ⟨d, sep2, rfl⟩ : ∃ d s2, sep = d :: s2 := by
      cases sep with
      | nil => exact absurd rfl hsep
      | cons d s2 => exact ⟨d, s2, rfl⟩
    simp only [List.nil_append, List.cons_append]
    simp only [pysplitAux]
    rw [if_pos]
    · rw [pysplitAux_skip]
      have hdrop : ((sep2 ++ rest).drop ((d :: sep2).length - 1)) = rest := by
        simp only [List.length_cons, Nat.add_sub_cancel]
        exact List.drop_left sep2 rest
      rw [hdrop]
      simp [pysplit]
    · rw [List.isPrefixOf_iff_prefix]
      exact ⟨rest, by simp⟩
  | cons c pre2 ih =>
    intro rest h acc
    have h0 := h 0 (by simp)
    rw [occursAt_zero] at h0
    simp only [List.cons_append]
    simp only [pysplitAux]
    rw [if_neg (by simp_all [List.cons_append])]
    rw [ih rest (fun i hi => h (i + 1) (by simp; omega)) (c :: acc)]
    simp

/-- `pysplit` on a string without the separator. -/
theorem pysplit_absent (sep s : List Char) (hsep : sep ≠ [])
    (h : absentFrom sep s) : pysplit sep s = [s] := by
  unfold pysplit
  rw [pysplitAux_no_occ sep s (absentFrom_all sep s hsep h) []]
  simp

/-- `pysplit` on a string with a unique separator occurrence. -/
theorem pysplit_unique (sep pre rest : List Char) (hsep : sep ≠ [])
    (hu : uniqueOccAt sep (pre ++ sep ++ rest) pre.length) :
    pysplit sep (pre ++ sep ++ rest) = [pre, rest] := by
  unfold pysplit
  rw [pysplitAux_found sep hsep pre rest ?hpre []]
  case hpre =>
    intro i hi
    exact uniqueOccAt_elsewhere sep _ pre.length hsep hu i (by omega)
  have h1 : 1 ≤ sep.length := by
    cases sep with
    | nil => exact absurd rfl hsep
    | cons a b => simp
  have hrest : ∀ i, occursAt sep rest i = false := by
    intro i
    have key : occursAt sep rest i =
        occursAt sep ((pre ++ sep) ++ rest) ((pre ++ sep).length + i) :=
      (occursAt_append_right sep (pre ++ sep) rest i).symm
    rw [key]
    apply uniqueOccAt_elsewhere sep _ pre.length hsep hu
    rw [List.length_append]
    omega
  have hr : pysplit sep rest = [rest] := by
    unfold pysplit
    rw [pysplitAux_no_occ sep rest hrest []]
    simp
  rw [hr]
  simp

/-- Python `s.split(sep)[0]` when `sep` occurs uniquely. -/
theorem split_headD_unique (sep pre rest : List Char) (hsep : sep ≠ [])
    (hu : uniqueOccAt sep (pre ++ sep ++ rest) pre.length) :
    (pysplit sep (pre ++ sep ++ rest)).headD [] = pre := by
  rw [pysplit_unique sep pre rest hsep hu]; rfl

/-- Python `s.split(sep)[0]` when `sep` is absent: the whole string. -/
theorem split_headD_absent (sep s : List Char) (hsep : sep ≠ [])
    (h : absentFrom sep s) : (pysplit sep s).headD [] = s := by
  rw [pysplit_absent sep s hsep h]; rfl

/-- Python `s.split(sep)[1]` when `sep` occurs uniquely. -/
theorem split_get1_unique (sep pre rest : List Char) (hsep : sep ≠ [])
    (hu : uniqueOccAt sep (pre ++ sep ++ rest) pre.length) :
    (pysplit sep (pre ++ sep ++ rest))[1]? = some rest := by
  rw [pysplit_unique sep pre rest hsep hu]; rfl

/-- Python `s.split(sep)[1]` raises when `sep` is absent (`none`). -/
theorem split_get1_absent (sep s : List Char) (hsep : sep ≠ [])
    (h : absentFrom sep s) : (pysplit sep s)[1]? = none := by
  rw [pysplit_absent sep s hsep h]; rfl

theorem marker2_ne : marker2 ≠ [] := by decide

theorem marker3_ne : marker3 ≠ [] := by decide

theorem marker4_ne : marker4 ≠ [] := by decide

theorem marker5_ne : marker5 ≠ [] := by decide

/-- Evaluation of the five slices on a response that carries each of the
four markers exactly once, in order. -/
theorem sections_eval_full (rsp s1 s2 s3 s4 s5 : List Char)
    (hd : rsp = s1 ++ marker2 ++ s2 ++ marker3 ++ s3 ++ marker4 ++ s4 ++
      marker5 ++ s5)
    (hu2 : uniqueOccAt marker2 rsp s1.length)
    (hu3 : uniqueOccAt marker3 rsp
      (s1.length + marker2.length + s2.length))
    (hu4 : uniqueOccAt marker4 rsp
      (s1.length + marker2.length + s2.length + marker3.length + s3.length))
    (hu5 : uniqueOccAt marker5 rsp
      (s1.length + marker2.length + s2.length + marker3.length + s3.length +
        marker4.length + s4.length)) :
    results_section rsp = s1 ∧ rec_section rsp = some s2 ∧
    summaryRaw rsp = some s3 ∧ scoreRaw rsp = some s4 ∧
    disclaimerRaw rsp = some s5 := by
  subst hd
  -- Split on marker2 with `pre = s1`.
  have v2 : s1 ++ marker2 ++ s2 ++ marker3 ++ s3 ++ marker4 ++ s4 ++
      marker5 ++ s5 =
      s1 ++ marker2 ++
        (s2 ++ marker3 ++ (s3 ++ marker4 ++ (s4 ++ marker5 ++ s5))) := by
    simp [List.append_assoc]
  have hu2a := hu2
  rw [v2] at hu2a
  have split2 := pysplit_unique marker2 s1 _ marker2_ne hu2a
  -- marker3 occurs uniquely in the tail after marker2.
  have hu3R : uniqueOccAt marker3
      (s2 ++ marker3 ++ (s3 ++ marker4 ++ (s4 ++ marker5 ++ s5)))
      s2.length := by
    have e : s1 ++ marker2 ++ s2 ++ marker3 ++ s3 ++ marker4 ++ s4 ++
        marker5 ++ s5 =
        (s1 ++ marker2) ++
          (s2 ++ marker3 ++ (s3 ++ marker4 ++ (s4 ++ marker5 ++ s5))) := by
      simp [List.append_assoc]
    have hp : s1.length + marker2.length + s2.length =
        (s1 ++ marker2).length + s2.length := by
      simp only [List.length_append]
    have hu3a := hu3
    rw [e, hp] at hu3a
    exact uniqueOccAt_suffix marker3 _ _ _ marker3_ne hu3a
  have split3R := pysplit_unique marker3 s2 _ marker3_ne hu3R
  -- Split on marker3 with `pre = s1 ++ marker2 ++ s2`.
  have v3 : s1 ++ marker2 ++ s2 ++ marker3 ++ s3 ++ marker4 ++ s4 ++
      marker5 ++ s5 =
      (s1 ++ marker2 ++ s2) ++ marker3 ++
        (s3 ++ marker4 ++ (s4 ++ marker5 ++ s5)) := by
    simp [List.append_assoc]
  have hu3b := hu3
  have hp3 : s1.length + marker2.length + s2.length =
      (s1 ++ marker2 ++ s2).length := by
    simp only [List.length_append]
  rw [v3, hp3] at hu3b
  have split3 := pysplit_unique marker3 (s1 ++ marker2 ++ s2) _ marker3_ne hu3b
  -- marker4 occurs uniquely in the tail after marker3.
  have hu4R : uniqueOccAt marker4 (s3 ++ marker4 ++ (s4 ++ marker5 ++ s5))
      s3.length := by
    have e : s1 ++ marker2 ++ s2 ++ marker3 ++ s3 ++ marker4 ++ s4 ++
        marker5 ++ s5 =
        (s1 ++ marker2 ++ s2 ++ marker3) ++
          (s3 ++ marker4 ++ (s4 ++ marker5 ++ s5)) := by
      simp [List.append_assoc]
    have hp : s1.length + marker2.length + s2.length + marker3.length +
        s3.length = (s1 ++ marker2 ++ s2 ++ marker3).length + s3.length := by
      simp only [List.length_append]
    have hu4a := hu4
    rw [e, hp] at hu4a
    exact uniqueOccAt_suffix marker4 _ _ _ marker4_ne hu4a
  have split4R := pysplit_unique marker4 s3 _ marker4_ne hu4R
  -- Split on marker4 with `pre = s1 ++ marker2 ++ s2 ++ marker3 ++ s3`.
  have v4 : s1 ++ marker2 ++ s2 ++ marker3 ++ s3 ++ marker4 ++ s4 ++
      marker5 ++ s5 =
      (s1 ++ marker2 ++ s2 ++ marker3 ++ s3) ++ marker4 ++
        (s4 ++ marker5 ++ s5) := by
    simp [List.append_assoc]
  have hu4b := hu4
  have hp4 : s1.length + marker2.length + s2.length + marker3.length +
      s3.length = (s1 ++ marker2 ++ s2 ++ marker3 ++ s3).length := by
    simp only [List.length_append]
  rw [v4, hp4] at hu4b
  have split4 := pysplit_unique marker4 (s1 ++ marker2 ++ s2 ++ marker3 ++ s3)
    _ marker4_ne hu4b
  -- marker5 occurs uniquely in the tail after marker4.
  have hu5R : uniqueOccAt marker5 (s4 ++ marker5 ++ s5) s4.length := by
    have e : s1 ++ marker2 ++ s2 ++ marker3 ++ s3 ++ marker4 ++ s4 ++
        marker5 ++ s5 =
        (s1 ++ marker2 ++ s2 ++ marker3 ++ s3 ++ marker4) ++
          (s4 ++ marker5 ++ s5) := by
      simp [List.append_assoc]
    have hp : s1.length + marker2.length + s2.length + marker3.length +
        s3.length + marker4.length + s4.length =
        (s1 ++ marker2 ++ s2 ++ marker3 ++ s3 ++ marker4).length +
          s4.length := by
      simp only [List.length_append]
    have hu5a := hu5
    rw [e, hp] at hu5a
    exact uniqueOccAt_suffix marker5 _ _ _ marker5_ne hu5a
  have split5R := pysplit_unique marker5 s4 _ marker5_ne hu5R
  -- Split on marker5 with the longest prefix (already in that shape).
  have hu5b := hu5
  have hp5 : s1.length + marker2.length + s2.length + marker3.length +
      s3.length + marker4.length + s4.length =
      (s1 ++ marker2 ++ s2 ++ marker3 ++ s3 ++ marker4 ++ s4).length := by
    simp only [List.length_append]
  rw [hp5] at hu5b
  have split5 := pysplit_unique marker5
    (s1 ++ marker2 ++ s2 ++ marker3 ++ s3 ++ marker4 ++ s4) _ marker5_ne hu5b
  refine ⟨?_, ?_, ?_, ?_, ?_⟩
  · simp only [results_section]
    rw [v2, split2]
    rfl
  · simp only [rec_section]
    rw [v2, split2]
    simp only [List.getElem?_cons_succ, List.getElem?_cons_zero,
      Option.map_some']
    rw [split3R]
    rfl
  · simp only [summaryRaw]
    rw [v3, split3]
    simp only [List.getElem?_cons_succ, List.getElem?_cons_zero,
      Option.map_some']
    rw [split4R]
    rfl
  · simp only [scoreRaw]
    rw [v4, split4]
    simp only [List.getElem?_cons_succ, List.getElem?_cons_zero,
      Option.map_some']
    rw [split5R]
    rfl
  · simp only [disclaimerRaw]
    rw [split5]
    rfl

/-- Evaluation of the five slices when `marker2` is absent and the other
three markers occur exactly once, in order.  The first slice does not
fail: it silently returns the whole response. -/
theorem sections_eval_no2 (rsp t s3 s4 s5 : List Char)
    (hd : rsp = t ++ marker3 ++ s3 ++ marker4 ++ s4 ++ marker5 ++ s5)
    (ha2 : absentFrom marker2 rsp)
    (hu3 : uniqueOccAt marker3 rsp t.length)
    (hu4 : uniqueOccAt marker4 rsp (t.length + marker3.length + s3.length))
    (hu5 : uniqueOccAt marker5 rsp
      (t.length + marker3.length + s3.length + marker4.length + s4.length)) :
    results_section rsp = rsp ∧ rec_section rsp = none ∧
    summaryRaw rsp = some s3 ∧ scoreRaw rsp = some s4 ∧
    disclaimerRaw rsp = some s5 := by
  subst hd
  have split2 := pysplit_absent marker2 _ marker2_ne ha2
  have v3 : t ++ marker3 ++ s3 ++ marker4 ++ s4 ++ marker5 ++ s5 =
      t ++ marker3 ++ (s3 ++ marker4 ++ (s4 ++ marker5 ++ s5)) := by
    simp [List.append_assoc]
  have hu3a := hu3
  rw [v3] at hu3a
  have split3 := pysplit_unique marker3 t _ marker3_ne hu3a
  have hu4R : uniqueOccAt marker4 (s3 ++ marker4 ++ (s4 ++ marker5 ++ s5))
      s3.length := by
    have e : t ++ marker3 ++ s3 ++ marker4 ++ s4 ++ marker5 ++ s5 =
        (t ++ marker3) ++ (s3 ++ marker4 ++ (s4 ++ marker5 ++ s5)) := by
      simp [List.append_assoc]
    have hp : t.length + marker3.length + s3.length =
        (t ++ marker3).length + s3.length := by
      simp only [List.length_append]
    have hu4a := hu4
    rw [e, hp] at hu4a
    exact uniqueOccAt_suffix marker4 _ _ _ marker4_ne hu4a
  have split4R := pysplit_unique marker4 s3 _ marker4_ne hu4R
  have v4 : t ++ marker3 ++ s3 ++ marker4 ++ s4 ++ marker5 ++ s5 =
      t ++ marker3 ++ s3 ++ marker4 ++ (s4 ++ marker5 ++ s5) := by
    simp [List.append_assoc]
  have hp4 : t.length + marker3.length + s3.length =
      (t ++ marker3 ++ s3).length := by
    simp only [List.length_append]
  have hu4b := hu4
  rw [v4, hp4] at hu4b
  have split4 := pysplit_unique marker4 (t ++ marker3 ++ s3) _ marker4_ne hu4b
  have hu5R : uniqueOccAt marker5 (s4 ++ marker5 ++ s5) s4.length := by
    have e : t ++ marker3 ++ s3 ++ marker4 ++ s4 ++ marker5 ++ s5 =
        (t ++ marker3 ++ s3 ++ marker4) ++ (s4 ++ marker5 ++ s5) := by
      simp [List.append_assoc]
    have hp : t.length + marker3.length + s3.length + marker4.length +
        s4.length = (t ++ marker3 ++ s3 ++ marker4).length + s4.length := by
      simp only [List.length_append]
    have hu5a := hu5
    rw [e, hp] at hu5a
    exact uniqueOccAt_suffix marker5 _ _ _ marker5_ne hu5a
  have split5R := pysplit_unique marker5 s4 _ marker5_ne hu5R
  have hp5 : t.length + marker3.length + s3.length + marker4.length +
      s4.length = (t ++ marker3 ++ s3 ++ marker4 ++ s4).length := by
    simp only [List.length_append]
  have hu5b := hu5
  rw [hp5] at hu5b
  have split5 := pysplit_unique marker5 (t ++ marker3 ++ s3 ++ marker4 ++ s4)
    _ marker5_ne hu5b
  refine ⟨?_, ?_, ?_, ?_, ?_⟩
  · simp only [results_section]
    rw [split2]
    rfl
  · simp only [rec_section]
    rw [split2]
    rfl
  · simp only [summaryRaw]
    rw [v3, split3]
    simp only [List.getElem?_cons_succ, List.getElem?_cons_zero,
      Option.map_some']
    rw [split4R]
    rfl
  · simp only [scoreRaw]
    rw [v4, split4]
    simp only [List.getElem?_cons_succ, List.getElem?_cons_zero,
      Option.map_some']
    rw [split5R]
    rfl
  · simp only [disclaimerRaw]
    rw [split5]
    rfl

/-- Evaluation of the five slices when `marker3` is absent and the other
three markers occur exactly once, in order.  The recommendations slice
does not fail: it extends past the intended boundary to the end of the
response, while the summary slice raises (`none`). -/
theorem sections_eval_no3 (rsp s1 t s4 s5 : List Char)
    (hd : rsp = s1 ++ marker2 ++ t ++ marker4 ++ s4 ++ marker5 ++ s5)
    (hu2 : uniqueOccAt marker2 rsp s1.length)
    (ha3 : absentFrom marker3 rsp)
    (hu4 : uniqueOccAt marker4 rsp (s1.length + marker2.length + t.length))
    (hu5 : uniqueOccAt marker5 rsp
      (s1.length + marker2.length + t.length + marker4.length + s4.length)) :
    results_section rsp = s1 ∧
    rec_section rsp = some (t ++ marker4 ++ (s4 ++ marker5 ++ s5)) ∧
    summaryRaw rsp = none ∧ scoreRaw rsp = some s4 ∧
    disclaimerRaw rsp = some s5 := by
  subst hd
  have v2 : s1 ++ marker2 ++ t ++ marker4 ++ s4 ++ marker5 ++ s5 =
      s1 ++ marker2 ++ (t ++ marker4 ++ (s4 ++ marker5 ++ s5)) := by
    simp [List.append_assoc]
  have hu2a := hu2
  rw [v2] at hu2a
  have split2 := pysplit_unique marker2 s1 _ marker2_ne hu2a
  have ha3R : absentFrom marker3 (t ++ marker4 ++ (s4 ++ marker5 ++ s5)) := by
    have ha3a := ha3
    rw [v2] at ha3a
    have e : s1 ++ marker2 ++ (t ++ marker4 ++ (s4 ++ marker5 ++ s5)) =
        (s1 ++ marker2) ++ (t ++ marker4 ++ (s4 ++ marker5 ++ s5)) := by
      simp [List.append_assoc]
    rw [e] at ha3a
    exact absentFrom_suffix marker3 _ _ marker3_ne ha3a
  have headD3R := split_headD_absent marker3 _ marker3_ne ha3R
  have get1_3 := split_get1_absent marker3 _ marker3_ne ha3
  have v4 : s1 ++ marker2 ++ t ++ marker4 ++ s4 ++ marker5 ++ s5 =
      s1 ++ marker2 ++ t ++ marker4 ++ (s4 ++ marker5 ++ s5) := by
    simp [List.append_assoc]
  have hp4 : s1.length + marker2.length + t.length =
      (s1 ++ marker2 ++ t).length := by
    simp only [List.length_append]
  have hu4b := hu4
  rw [v4, hp4] at hu4b
  have split4 := pysplit_unique marker4 (s1 ++ marker2 ++ t) _ marker4_ne hu4b
  have hu5R : uniqueOccAt marker5 (s4 ++ marker5 ++ s5) s4.length := by
    have e : s1 ++ marker2 ++ t ++ marker4 ++ s4 ++ marker5 ++ s5 =
        (s1 ++ marker2 ++ t ++ marker4) ++ (s4 ++ marker5 ++ s5) := by
      simp [List.append_assoc]
    have hp : s1.length + marker2.length + t.length + marker4.length +
        s4.length = (s1 ++ marker2 ++ t ++ marker4).length + s4.length := by
      simp only [List.length_append]
    have hu5a := hu5
    rw [e, hp] at hu5a
    exact uniqueOccAt_suffix marker5 _ _ _ marker5_ne hu5a
  have split5R := pysplit_unique marker5 s4 _ marker5_ne hu5R
  have hp5 : s1.length + marker2.length + t.length + marker4.length +
      s4.length = (s1 ++ marker2 ++ t ++ marker4 ++ s4).length := by
    simp only [List.length_append]
  have hu5b := hu5
  rw [hp5] at hu5b
  have split5 := pysplit_unique marker5 (s1 ++ marker2 ++ t ++ marker4 ++ s4)
    _ marker5_ne hu5b
  refine ⟨?_, ?_, ?_, ?_, ?_⟩
  · simp only [results_section]
    rw [v2, split2]
    rfl
  · simp only [rec_section]
    rw [v2, split2]
    simp only [List.getElem?_cons_succ, List.getElem?_cons_zero,
      Option.map_some']
    rw [headD3R]
  · simp only [summaryRaw]
    rw [get1_3]
    rfl
  · simp only [scoreRaw]
    rw [v4, split4]
    simp only [List.getElem?_cons_succ, List.getElem?_cons_zero,
      Option.map_some']
    rw [split5R]
    rfl
  · simp only [disclaimerRaw]
    rw [split5]
    rfl

/-- Evaluation of the five slices when `marker4` is absent and the other
three markers occur exactly once, in order.  The summary slice does not
fail: it extends past the intended boundary to the end of the response,
while the score slice raises (`none`). -/
theorem sections_eval_no4 (rsp s1 s2 t s5 : List Char)
    (hd : rsp = s1 ++ marker2 ++ s2 ++ marker3 ++ t ++ marker5 ++ s5)
    (hu2 : uniqueOccAt marker2 rsp s1.length)
    (hu3 : uniqueOccAt marker3 rsp
      (s1.length + marker2.length + s2.length))
    (ha4 : absentFrom marker4 rsp)
    (hu5 : uniqueOccAt marker5 rsp
      (s1.length + marker2.length + s2.length + marker3.length + t.length)) :
    results_section rsp = s1 ∧ rec_section rsp = some s2 ∧
    summaryRaw rsp = some (t ++ marker5 ++ s5) ∧ scoreRaw rsp = none ∧
    disclaimerRaw rsp = some s5 := by
  subst hd
  have v2 : s1 ++ marker2 ++ s2 ++ marker3 ++ t ++ marker5 ++ s5 =
      s1 ++ marker2 ++ (s2 ++ marker3 ++ (t ++ marker5 ++ s5)) := by
    simp [List.append_assoc]
  have hu2a := hu2
  rw [v2] at hu2a
  have split2 := pysplit_unique marker2 s1 _ marker2_ne hu2a
  have hu3R : uniqueOccAt marker3 (s2 ++ marker3 ++ (t ++ marker5 ++ s5))
      s2.length := by
    have e : s1 ++ marker2 ++ s2 ++ marker3 ++ t ++ marker5 ++ s5 =
        (s1 ++ marker2) ++ (s2 ++ marker3 ++ (t ++ marker5 ++ s5)) := by
      simp [List.append_assoc]
    have hp : s1.length + marker2.length + s2.length =
        (s1 ++ marker2).length + s2.length := by
      simp only [List.length_append]
    have hu3a := hu3
    rw [e, hp] at hu3a
    exact uniqueOccAt_suffix marker3 _ _ _ marker3_ne hu3a
  have split3R := pysplit_unique marker3 s2 _ marker3_ne hu3R
  have v3 : s1 ++ marker2 ++ s2 ++ marker3 ++ t ++ marker5 ++ s5 =
      s1 ++ marker2 ++ s2 ++ marker3 ++ (t ++ marker5 ++ s5) := by
    simp [List.append_assoc]
  have hp3 : s1.length + marker2.length + s2.length =
      (s1 ++ marker2 ++ s2).length := by
    simp only [List.length_append]
  have hu3b := hu3
  rw [v3, hp3] at hu3b
  have split3 := pysplit_unique marker3 (s1 ++ marker2 ++ s2) _ marker3_ne hu3b
  have ha4R : absentFrom marker4 (t ++ marker5 ++ s5) := by
    have ha4a := ha4
    have e : s1 ++ marker2 ++ s2 ++ marker3 ++ t ++ marker5 ++ s5 =
        (s1 ++ marker2 ++ s2 ++ marker3) ++ (t ++ marker5 ++ s5) := by
      simp [List.append_assoc]
    rw [e] at ha4a
    exact absentFrom_suffix marker4 _ _ marker4_ne ha4a
  have headD4R := split_headD_absent marker4 _ marker4_ne ha4R
  have get1_4 := split_get1_absent marker4 _ marker4_ne ha4
  have hp5 : s1.length + marker2.length + s2.length + marker3.length +
      t.length = (s1 ++ marker2 ++ s2 ++ marker3 ++ t).length := by
    simp only [List.length_append]
  have hu5b := hu5
  rw [hp5] at hu5b
  have split5 := pysplit_unique marker5 (s1 ++ marker2 ++ s2 ++ marker3 ++ t)
    _ marker5_ne hu5b
  refine ⟨?_, ?_, ?_, ?_, ?_⟩
  · simp only [results_section]
    rw [v2, split2]
    rfl
  · simp only [rec_section]
    rw [v2, split2]
    simp only [List.getElem?_cons_succ, List.getElem?_cons_zero,
      Option.map_some']
    rw [split3R]
    rfl
  · simp only [summaryRaw]
    rw [v3, split3]
    simp only [List.getElem?_cons_succ, List.getElem?_cons_zero,
      Option.map_some']
    rw [headD4R]
  · simp only [scoreRaw]
    rw [get1_4]
    rfl
  · simp only [disclaimerRaw]
    rw [split5]
    rfl

/-- Evaluation of the five slices when `marker5` is absent and the other
three markers occur exactly once, in order.  The score slice does not
fail: it extends to the end of the response, while the disclaimer slice
raises (`none`). -/
theorem sections_eval_no5 (rsp s1 s2 s3 t : List Char)
    (hd : rsp = s1 ++ marker2 ++ s2 ++ marker3 ++ s3 ++ marker4 ++ t)
    (hu2 : uniqueOccAt marker2 rsp s1.length)
    (hu3 : uniqueOccAt marker3 rsp
      (s1.length + marker2.length + s2.length))
    (hu4 : uniqueOccAt marker4 rsp
      (s1.length + marker2.length + s2.length + marker3.length + s3.length))
    (ha5 : absentFrom marker5 rsp) :
    results_section rsp = s1 ∧ rec_section rsp = some s2 ∧
    summaryRaw rsp = some s3 ∧ scoreRaw rsp = some t ∧
    disclaimerRaw rsp = none := by
  subst hd
  have v2 : s1 ++ marker2 ++ s2 ++ marker3 ++ s3 ++ marker4 ++ t =
      s1 ++ marker2 ++ (s2 ++ marker3 ++ (s3 ++ marker4 ++ t)) := by
    simp [List.append_assoc]
  have hu2a := hu2
  rw [v2] at hu2a
  have split2 := pysplit_unique marker2 s1 _ marker2_ne hu2a
  have hu3R : uniqueOccAt marker3 (s2 ++ marker3 ++ (s3 ++ marker4 ++ t))
      s2.length := by
    have e : s1 ++ marker2 ++ s2 ++ marker3 ++ s3 ++ marker4 ++ t =
        (s1 ++ marker2) ++ (s2 ++ marker3 ++ (s3 ++ marker4 ++ t)) := by
      simp [List.append_assoc]
    have hp : s1.length + marker2.length + s2.length =
        (s1 ++ marker2).length + s2.length := by
      simp only [List.length_append]
    have hu3a := hu3
    rw [e, hp] at hu3a
    exact uniqueOccAt_suffix marker3 _ _ _ marker3_ne hu3a
  have split3R := pysplit_unique marker3 s2 _ marker3_ne hu3R
  have v3 : s1 ++ marker2 ++ s2 ++ marker3 ++ s3 ++ marker4 ++ t =
      s1 ++ marker2 ++ s2 ++ marker3 ++ (s3 ++ marker4 ++ t) := by
    simp [List.append_assoc]
  have hp3 : s1.length + marker2.length + s2.length =
      (s1 ++ marker2 ++ s2).length := by
    simp only [List.length_append]
  have hu3b := hu3
  rw [v3, hp3] at hu3b
  have split3 := pysplit_unique marker3 (s1 ++ marker2 ++ s2) _ marker3_ne hu3b
  have hu4R : uniqueOccAt marker4 (s3 ++ marker4 ++ t) s3.length := by
    have e : s1 ++ marker2 ++ s2 ++ marker3 ++ s3 ++ marker4 ++ t =
        (s1 ++ marker2 ++ s2 ++ marker3) ++ (s3 ++ marker4 ++ t) := by
      simp [List.append_assoc]
    have hp : s1.length + marker2.length + s2.length + marker3.length +
        s3.length = (s1 ++ marker2 ++ s2 ++ marker3).length + s3.length := by
      simp only [List.length_append]
    have hu4a := hu4
    rw [e, hp] at hu4a
    exact uniqueOccAt_suffix marker4 _ _ _ marker4_ne hu4a
  have split4R := pysplit_unique marker4 s3 _ marker4_ne hu4R
  have hp4 : s1.length + marker2.length + s2.length + marker3.length +
      s3.length = (s1 ++ marker2 ++ s2 ++ marker3 ++ s3).length := by
    simp only [List.length_append]
  have hu4b := hu4
  rw [hp4] at hu4b
  have split4 := pysplit_unique marker4 (s1 ++ marker2 ++ s2 ++ marker3 ++ s3)
    _ marker4_ne hu4b
  have ha5R : absentFrom marker5 t := by
    have ha5a := ha5
    have e : s1 ++ marker2 ++ s2 ++ marker3 ++ s3 ++ marker4 ++ t =
        (s1 ++ marker2 ++ s2 ++ marker3 ++ s3 ++ marker4) ++ t := by
      simp [List.append_assoc]
    rw [e] at ha5a
    exact absentFrom_suffix marker5 _ _ marker5_ne ha5a
  have headD5R := split_headD_absent marker5 _ marker5_ne ha5R
  have get1_5 := split_get1_absent marker5 _ marker5_ne ha5
  refine ⟨?_, ?_, ?_, ?_, ?_⟩
  · simp only [results_section]
    rw [v2, split2]
    rfl
  · simp only [rec_section]
    rw [v2, split2]
    simp only [List.getElem?_cons_succ, List.getElem?_cons_zero,
      Option.map_some']
    rw [split3R]
    rfl
  · simp only [summaryRaw]
    rw [v3, split3]
    simp only [List.getElem?_cons_succ, List.getElem?_cons_zero,
      Option.map_some']
    rw [split4R]
    rfl
  · simp only [scoreRaw]
    rw [split4]
    simp only [List.getElem?_cons_succ, List.getElem?_cons_zero,
      Option.map_some']
    rw [headD5R]
  · simp only [disclaimerRaw]
    rw [get1_5]

/-! ## Structure of the rendered block sequence -/

/-- Project a drawn block to its section title (headings only). -/
def headingOf : Block → Option (List Char)
  | Block.heading t => some t
  | _ => none

theorem filterMap_headingOf_testResults (rs : List TestRecord) :
    (rs.map Block.testResult).filterMap headingOf = [] := by
  induction rs with
  | nil => rfl
  | cons r rest ih => simp [headingOf, ih]

/-- Whatever the response text, the document contains exactly the five
section headings, in order: each `try` block draws its heading before
attempting the slicing, and a slicing failure skips only the body. -/
theorem buildBlocks_headings (rsp : List Char) :
    (buildBlocks rsp).filterMap headingOf =
      [h1Title, h2Title, h3Title, h4Title, h5Title] := by
  unfold buildBlocks sec1Blocks sec2Blocks sec3Blocks sec4Blocks sec5Blocks
  cases hr : rec_section rsp <;> cases hs : summary rsp <;>
    cases hc : score_text rsp <;> cases hd : disclaimer rsp <;>
      simp [headingOf, filterMap_headingOf_testResults]

theorem sec2Blocks_of_none (rsp : List Char) (h : rec_section rsp = none) :
    sec2Blocks rsp = [Block.heading h2Title] := by
  simp [sec2Blocks, h]

theorem sec3Blocks_of_none (rsp : List Char) (h : summaryRaw rsp = none) :
    sec3Blocks rsp = [Block.heading h3Title] := by
  simp [sec3Blocks, summary, h]

theorem sec4Blocks_of_none (rsp : List Char) (h : scoreRaw rsp = none) :
    sec4Blocks rsp = [Block.heading h4Title] := by
  simp [sec4Blocks, score_text, h]

theorem sec5Blocks_of_none (rsp : List Char) (h : disclaimerRaw rsp = none) :
    sec5Blocks rsp = [Block.heading h5Title] := by
  simp [sec5Blocks, disclaimer, h]

/-! ## Characterisation of the bullet-extraction loop -/

/-- The bucket switch a line performs, if any: `"To Improve"` wins over
`"To Maintain"`, matching the `if`/`elif` order; both are tested on the
stripped line. -/
def lineMarker (l : List Char) : Option Bucket :=
  if pyin improveTok (pystrip l) then some Bucket.improve
  else if pyin maintainTok (pystrip l) then some Bucket.maintain
  else none

/-- A bullet line: not a marker line, and its stripped form starts with
the glyph `*`. -/
def isBulletLine (l : List Char) : Bool :=
  !(pyin improveTok (pystrip l)) && !(pyin maintainTok (pystrip l)) &&
    List.isPrefixOf ['*'] (pystrip l)

/-- The text a bullet line contributes: the stripped line minus the
glyph, stripped again (`line[1:].strip()` after `line = line.strip()`). -/
def bulletText (l : List Char) : List Char :=
  pystrip ((pystrip l).drop 1)

/-- The bullet texts of the bullet lines of `ls`, in order. -/
def bulletsOf (ls : List (List Char)) : List (List Char) :=
  (ls.filter isBulletLine).map bulletText

/-- The active bucket after scanning `ls`, starting from `cur`: the last
marker line wins; other lines leave it unchanged. -/
def curAfter (cur : Option Bucket) : List (List Char) → Option Bucket
  | [] => cur
  | l :: rest =>
    curAfter (match lineMarker l with
      | some b => some b
      | none => cur) rest

/-- One step of the loop, re-expressed through `lineMarker`,
`isBulletLine` and `bulletText`. -/
theorem recLoop_cons (l : List Char) (rest imp mnt : List (List Char))
    (cur : Option Bucket) :
    recLoop (l :: rest) imp mnt cur =
      match lineMarker l with
      | some b => recLoop rest imp mnt (some b)
      | none =>
        if isBulletLine l then
          match cur with
          | some Bucket.improve => recLoop rest (imp ++ [bulletText l]) mnt cur
          | some Bucket.maintain => recLoop rest imp (mnt ++ [bulletText l]) cur
          | none => recLoop rest imp mnt cur
        else recLoop rest imp mnt cur := by
  by_cases h1 : pyin improveTok (pystrip l) = true
  · simp [recLoop, lineMarker, h1]
  · by_cases h2 : pyin maintainTok (pystrip l) = true
    · simp [recLoop, lineMarker, h1, h2]
    · by_cases h3 : List.isPrefixOf ['*'] (pystrip l) = true
      · simp [recLoop, lineMarker, isBulletLine, bulletText, h1, h2, h3]
      · simp [recLoop, lineMarker, isBulletLine, h1, h2, h3]

/-- The two buckets only ever grow at the end: running the loop from
accumulated state appends exactly what the loop from empty state
produces. -/
theorem recLoop_acc (ls : List (List Char)) :
    ∀ imp mnt cur, recLoop ls imp mnt cur =
      (imp ++ (recLoop ls [] [] cur).1, mnt ++ (recLoop ls [] [] cur).2) := by
  induction ls with
  | nil => intro imp mnt cur; simp [recLoop]
  | cons l rest ih =>
    intro imp mnt cur
    cases hm : lineMarker l with
    | some b =>
      simp only [recLoop_cons, hm]
      exact ih imp mnt (some b)
    | none =>
      by_cases hb : isBulletLine l = true
      · cases cur with
        | none =>
          simp only [recLoop_cons, hm, hb, if_true]
          exact ih imp mnt none
        | some b =>
          cases b with
          | improve =>
            simp only [recLoop_cons, hm, hb, if_true]
            rw [ih (imp ++ [bulletText l]) mnt (some Bucket.improve),
                ih ([] ++ [bulletText l]) [] (some Bucket.improve)]
            simp
          | maintain =>
            simp only [recLoop_cons, hm, hb, if_true]
            rw [ih imp (mnt ++ [bulletText l]) (some Bucket.maintain),
                ih [] ([] ++ [bulletText l]) (some Bucket.maintain)]
            simp
      · simp only [recLoop_cons, hm, hb, Bool.false_eq_true, if_false]
        exact ih imp mnt cur

theorem curAfter_cons (cur : Option Bucket) (l : List Char)
    (rest : List (List Char)) :
    curAfter cur (l :: rest) =
      curAfter (match lineMarker l with
        | some b => some b
        | none => cur) rest := rfl

theorem curAfter_no_marker (ls : List (List Char))
    (h : ∀ l ∈ ls, lineMarker l = none) :
    ∀ cur, curAfter cur ls = cur := by
  induction ls with
  | nil => intro cur; rfl
  | cons l rest ih =>
    intro cur
    rw [curAfter_cons, h l (List.mem_cons_self l rest)]
    exact ih (fun l2 hl2 => h l2 (List.mem_cons_of_mem _ hl2)) cur

/-- The loop processes an appended tail from the state and active bucket
produced by the front. -/
theorem recLoop_append (xs ys : List (List Char)) :
    ∀ imp mnt cur, recLoop (xs ++ ys) imp mnt cur =
      recLoop ys (recLoop xs imp mnt cur).1 (recLoop xs imp mnt cur).2
        (curAfter cur xs) := by
  induction xs with
  | nil => intro imp mnt cur; simp [recLoop, curAfter]
  | cons l rest ih =>
    intro imp mnt cur
    rw [List.cons_append]
    cases hm : lineMarker l with
    | some b =>
      simp only [recLoop_cons, hm, curAfter_cons]
      exact ih imp mnt (some b)
    | none =>
      by_cases hb : isBulletLine l = true
      · cases cur with
        | none =>
          simp only [recLoop_cons, hm, hb, if_true, curAfter_cons]
          exact ih imp mnt none
        | some b =>
          cases b with
          | improve =>
            simp only [recLoop_cons, hm, hb, if_true, curAfter_cons]
            exact ih (imp ++ [bulletText l]) mnt (some Bucket.improve)
          | maintain =>
            simp only [recLoop_cons, hm, hb, if_true, curAfter_cons]
            exact ih imp (mnt ++ [bulletText l]) (some Bucket.maintain)
      · simp only [recLoop_cons, hm, hb, Bool.false_eq_true, if_false,
          curAfter_cons]
        exact ih imp mnt cur

/-- On a marker-free run of lines, the loop collects exactly the bullet
texts into the active bucket — and collects nothing when no bucket is
active. -/
theorem recLoop_no_marker (ls : List (List Char))
    (h : ∀ l ∈ ls, lineMarker l = none) :
    recLoop ls [] [] (some Bucket.improve) = (bulletsOf ls, []) ∧
    recLoop ls [] [] (some Bucket.maintain) = ([], bulletsOf ls) ∧
    recLoop ls [] [] none = ([], []) := by
  induction ls with
  | nil => exact ⟨rfl, rfl, rfl⟩
  | cons l rest ih =>
    have hml := h l (List.mem_cons_self l rest)
    obtain ⟨ih1, ih2, ih3⟩ := ih (fun l2 hl2 => h l2 (List.mem_cons_of_mem _ hl2))
    by_cases hb : isBulletLine l = true
    · have hbl : bulletsOf (l :: rest) = bulletText l :: bulletsOf rest := by
        simp [bulletsOf, List.filter_cons, hb]
      refine ⟨?_, ?_, ?_⟩
      · simp only [recLoop_cons, hml, hb, if_true]
        rw [recLoop_acc rest ([] ++ [bulletText l]) [] (some Bucket.improve),
          ih1, hbl]
        simp
      · simp only [recLoop_cons, hml, hb, if_true]
        rw [recLoop_acc rest [] ([] ++ [bulletText l]) (some Bucket.maintain),
          ih2, hbl]
        simp
      · simp only [recLoop_cons, hml, hb, if_true]
        exact ih3
    · have hbl : bulletsOf (l :: rest) = bulletsOf rest := by
        simp [bulletsOf, List.filter_cons, hb]
      refine ⟨?_, ?_, ?_⟩
      · simp only [recLoop_cons, hml, hb, Bool.false_eq_true, if_false]
        rw [ih1, hbl]
      · simp only [recLoop_cons, hml, hb, Bool.false_eq_true, if_false]
        rw [ih2, hbl]
      · simp only [recLoop_cons, hml, hb, Bool.false_eq_true, if_false]
        exact ih3

/-! ## Characterisation of test-record extraction -/

/-- The loop body raises (`IndexError` on `lines[0]`) exactly on chunks
whose stripped text has no lines. -/
theorem parseTest_eq_none_iff (test : List Char) :
    parseTest test = none ↔ pysplitlines (pystrip test) = [] := by
  unfold parseTest
  cases h : pysplitlines (pystrip test) <;> simp

/-- A chunk with at least one line parses to the record built from its
first line and the three field scans. -/
theorem parseTest_some (test l0 : List Char) (rest : List (List Char))
    (h : pysplitlines (pystrip test) = l0 :: rest) :
    parseTest test = some
      { indicator := pystrip l0
        result := fieldOf yourResultTok (l0 :: rest)
        normal_range := fieldOf normalRangeTok (l0 :: rest)
        comment := fieldOf commentTok (l0 :: rest) } := by
  unfold parseTest
  rw [h]

/-- When every chunk parses, the loop draws one record per chunk, in
order, and never raises. -/
theorem extractTests_total (ts : List (List Char))
    (h : ∀ t ∈ ts, parseTest t ≠ none) :
    (extractTests ts).2 = false ∧
    ts.map parseTest = (extractTests ts).1.map some := by
  induction ts with
  | nil => exact ⟨rfl, rfl⟩
  | cons t ts ih =>
    have ht := h t (List.mem_cons_self t ts)
    obtain ⟨r, hr⟩ := Option.ne_none_iff_exists'.mp ht
    obtain ⟨ih1, ih2⟩ := ih (fun t2 h2 => h t2 (List.mem_cons_of_mem _ h2))
    refine ⟨?_, ?_⟩
    · simp only [extractTests, hr]
      exact ih1
    · simp only [List.map_cons, extractTests, hr, ih2]

/-- The first line containing `needle` supplies the field value. -/
theorem fieldOf_of_first (needle : List Char) (pre : List (List Char))
    (l : List Char) (post : List (List Char))
    (hl : pyin needle l = true) (hpre : ∀ l2 ∈ pre, pyin needle l2 = false) :
    fieldOf needle (pre ++ l :: post) =
      pystrip ((pysplit1 [':'] l).getD 1 []) := by
  unfold fieldOf
  have hfind : (pre ++ l :: post).find? (fun x => pyin needle x) = some l := by
    induction pre with
    | nil => simp [List.find?_cons_of_pos, hl]
    | cons p ps ih =>
      have hp := hpre p (List.mem_cons_self p ps)
      rw [List.cons_append, List.find?_cons_of_neg _ (by simp [hp])]
      exact ih (fun l2 h2 => hpre l2 (List.mem_cons_of_mem _ h2))
  rw [hfind]

/-- No line contains `needle`: the field is the empty string, without an
error. -/
theorem fieldOf_of_missing (needle : List Char) (lines : List (List Char))
    (h : ∀ l ∈ lines, pyin needle l = false) :
    fieldOf needle lines = [] := by
  unfold fieldOf
  have hfind : lines.find? (fun x => pyin needle x) = none :=
    List.find?_eq_none.mpr (fun x hx => by simp [h x hx])
  rw [hfind]

/-- `l.split(":", 1)` on a line whose first colon separates `a` from
`b`. -/
theorem pysplit1_colon (a b : List Char) (ha : ∀ c ∈ a, c ≠ ':') :
    pysplit1 [':'] (a ++ ':' :: b) = [a, b] := by
  suffices h : ∀ acc, pysplit1Aux [':'] acc (a ++ ':' :: b) =
      [acc.reverse ++ a, b] by
    have := h []
    simpa [pysplit1] using this
  induction a with
  | nil =>
    intro acc
    simp [pysplit1Aux, List.isPrefixOf]
  | cons c a2 ih =>
    intro acc
    have hc := ha c (List.mem_cons_self c a2)
    have hpre : ([':'] : List Char).isPrefixOf (c :: (a2 ++ ':' :: b)) = false := by
      simp [List.isPrefixOf, Ne.symm hc]
    rw [List.cons_append, pysplit1Aux, hpre]
    simp only [Bool.false_eq_true, if_false]
    rw [ih (fun c2 h2 => ha c2 (List.mem_cons_of_mem _ h2)) (c :: acc)]
    simp

/-- Total character count of a bullet list — the quantity the height
estimate would depend on if it were computed from character count. -/
def itemsCharCount (items : List (List Char)) : ℕ :=
  (items.map List.length).sum

/-! ## Claim theorems -/

/-- C1 (counterexample): after `add_test_result` on a 3000-character
comment, drawn on a fresh page with a width oracle returning 0, the
cursor stands at 309.5 — far beyond the 260 threshold.  The post-draw
cursor invariant claimed by the spec is false: `check_space(40)` runs
before the card with a fixed estimate, and the card's actual height is
unbounded. -/
theorem pageBreak_invariant_counterexample :
    (add_test_result (fun _ => 0) freshPDF [] [] []
      (List.replicate 3000 'a')).y > 260 := by
  have hcs : check_space freshPDF 40 = freshPDF := by
    rw [check_space, if_neg]
    norm_num [freshPDF, tMargin]
  rw [add_test_result, hcs]
  norm_num [freshPDF, tMargin, cardTotalHeight, cardH1, cardH2, cardH3,
    cardH4, List.length_replicate]

/-- C1 (amended): the space check runs once before each drawing
operation, never after.  After `check_space(h)` either the estimated
height still fits (`cursor + h ≤ 260`) or the cursor sits at the fresh
page's top margin; `add_section` always leaves the cursor at most 252;
for the card, bullets and paragraph operations the final cursor is the
post-check cursor plus the actual drawn height, with no check
afterwards — so it may exceed 260 when the content is taller than the
estimate. -/
theorem pageBreak_check_before_draw :
    (∀ (st : PDFState) (needed : ℚ),
      (check_space st needed).y + needed ≤ 260 ∨
      (check_space st needed).y = tMargin) ∧
    (∀ (st : PDFState) (title : List Char), (add_section st title).y ≤ 252) ∧
    (∀ (sw : List Char → ℚ) (st : PDFState) (i r n c : List Char),
      (add_test_result sw st i r n c).y =
        (check_space st 40).y + cardTotalHeight sw i r n c + 2) ∧
    (∀ (st : PDFState) (title : List Char) (items : List (List Char))
        (ws : List ℕ),
      (add_bullets st title items ws).y =
        (check_space st (bulletsEstHeight items)).y + 10 + 8 * (ws.sum : ℚ) + 2) ∧
    (∀ (st : PDFState) (text : List Char) (w : ℕ),
      (add_paragraph st text w).y = (check_space st 10).y + 8 * (w : ℚ)) := by
  refine ⟨?_, ?_, fun _ _ _ _ _ _ => rfl, fun _ _ _ _ => rfl, fun _ _ _ => rfl⟩
  · intro st needed
    by_cases h : st.y + needed > 260
    · right
      simp [check_space, h, add_page, tMargin]
    · left
      simp only [check_space, h, if_false]
      exact le_of_not_lt h
  · intro st title
    by_cases h : st.y + 20 > 260
    · simp only [add_section, check_space, h, if_true, add_page, tMargin]
      norm_num
    · simp only [add_section, check_space, h, if_false]
      have := le_of_not_lt h
      linarith

/-- C8 (counterexample): the bullets estimate depends on the number of
items, not on the character count (two lists with the same total
character count get different estimates), and the comment field's height
depends on the character count, not on the measured string width. -/
theorem height_estimation_counterexample :
    itemsCharCount ["ab".toList] = itemsCharCount ["a".toList, "b".toList] ∧
    bulletsEstHeight ["ab".toList] ≠ bulletsEstHeight ["a".toList, "b".toList] ∧
    cardH4 [] ≠ cardH4 (List.replicate 80 'x') := by
  refine ⟨by decide, ?_, ?_⟩
  · norm_num [bulletsEstHeight]
  · norm_num [cardH4, List.length_replicate]

/-- C8 (amended): the actual estimation formulas.  The three labelled
card fields use `(string_width / 190) * unit + unit` with units 8, 7, 7;
the comment field uses `len / 80 * 7 + 7` (character count); the bullets
check uses `10 + 8 * item_count + 4`; the paragraph check uses the
constant 10. -/
theorem height_estimation_formulas :
    (∀ (sw : List Char → ℚ) (i r n c : List Char),
      cardTotalHeight sw i r n c =
        (sw (indicatorLabel ++ i) / 190 * 8 + 8) +
        (sw (resultLabel ++ r) / 190 * 7 + 7) +
        (sw (normalRangeLabel ++ n) / 190 * 7 + 7) +
        ((c.length : ℚ) / 80 * 7 + 7) + 6) ∧
    (∀ items : List (List Char),
      bulletsEstHeight items = 10 + (items.length : ℚ) * 8 + 4) ∧
    (∀ (st : PDFState) (title : List Char) (items : List (List Char))
        (ws : List ℕ),
      add_bullets st title items ws =
        ⟨(check_space st (bulletsEstHeight items)).page,
         (check_space st (bulletsEstHeight items)).y + 10 +
           8 * (ws.sum : ℚ) + 2⟩) ∧
    (∀ (st : PDFState) (text : List Char) (w : ℕ),
      add_paragraph st text w =
        ⟨(check_space st 10).page, (check_space st 10).y + 8 * (w : ℚ)⟩) :=
  ⟨fun _ _ _ _ _ => rfl, fun _ => rfl, fun _ _ _ _ => rfl, fun _ _ _ => rfl⟩

/-- C6: `is_arabic` is true iff some code point lies in U+0600–U+06FF;
in particular it is false on the empty string and on any pure-ASCII
string. -/
theorem is_arabic_spec :
    (∀ text : List Char, is_arabic text = true ↔
      ∃ c ∈ text, '\u0600' ≤ c ∧ c ≤ '\u06FF') ∧
    is_arabic [] = false ∧
    (∀ text : List Char, (∀ c ∈ text, c.toNat < 128) →
      is_arabic text = false) := by
  refine ⟨?_, rfl, ?_⟩
  · intro text
    simp [is_arabic, List.any_eq_true]
  · intro text h
    rw [is_arabic, List.any_eq_false]
    intro c hc
    have hlt := h c hc
    have : ¬ ('\u0600' ≤ c) := by
      rw [Char.le_def]
      intro hle
      have : 1536 ≤ c.toNat := hle
      omega
    simp [this]

/-- C6 witness. -/
theorem is_arabic_spec_witness :
    is_arabic ("hello".toList) = false ∧ is_arabic ("سلام".toList) = true :=
  ⟨is_arabic_spec.2.2 _ (by decide),
   (is_arabic_spec.1 _).mpr ⟨'س', by decide, by decide, by decide⟩⟩

/-- C9 (code bug): an upload named `report.txt` is rejected before any
model call (the trace contains no `Ev.model_call`), but the client
receives HTTP 500, not the 400 the spec promises: the endpoint's
catch-all `except Exception` swallows the `HTTPException(400)` raised by
the extension check and re-raises it as
`HTTPException(500, "An error occurred: …")`. -/
theorem upload_gate_returns_500 (rsp : List Char) :
    analyze_report ("report.txt".toList) rsp = ([], Except.error 500) ∧
    analyze_report ("scan.PDF".toList) rsp =
      ([Ev.model_call], Except.ok (buildBlocks rsp)) ∧
    (500 : ℕ) ≠ 400 := by
  refine ⟨?_, ?_, by decide⟩
  · rw [analyze_report, if_neg (by decide)]
  · rw [analyze_report, if_pos (by decide)]

/-- C3 (counterexample): the sections the code returns do not
reconstruct the original text: section 3's slice is `.strip()`ped, so a
newline after the `**3. Summary**` marker is lost in the round trip. -/
theorem splitter_roundtrip_counterexample :
    summary (("A**2. Recommendations**B**3. Summary**\nC**4. Final Score**D**5. Medical Disclaimer**E").toList) =
      some ("C".toList) ∧
    results_section (("A**2. Recommendations**B**3. Summary**\nC**4. Final Score**D**5. Medical Disclaimer**E").toList) ++
      marker2 ++
      ((rec_section (("A**2. Recommendations**B**3. Summary**\nC**4. Final Score**D**5. Medical Disclaimer**E").toList)).getD []) ++
      marker3 ++
      ((summary (("A**2. Recommendations**B**3. Summary**\nC**4. Final Score**D**5. Medical Disclaimer**E").toList)).getD []) ++
      marker4 ++
      ((score_text (("A**2. Recommendations**B**3. Summary**\nC**4. Final Score**D**5. Medical Disclaimer**E").toList)).getD []) ++
      marker5 ++
      ((disclaimer (("A**2. Recommendations**B**3. Summary**\nC**4. Final Score**D**5. Medical Disclaimer**E").toList)).getD []) ≠
      ("A**2. Recommendations**B**3. Summary**\nC**4. Final Score**D**5. Medical Disclaimer**E").toList := by
  exact ⟨by decide, by decide⟩

/-- C3 (amended): on a response carrying each of the four markers exactly
once, in order, the raw slices are exactly the five decomposition parts
— non-overlapping, contiguous substrings whose concatenation with the
markers re-inserted reconstructs the original text — and the sections
the code returns are those slices after per-section normalization
(`.strip()` for sections 3–5, plus quote-stripping for the disclaimer
and `Metric:` removal for the score). -/
theorem splitter_roundtrip_raw (rsp s1 s2 s3 s4 s5 : List Char)
    (hd : rsp = s1 ++ marker2 ++ s2 ++ marker3 ++ s3 ++ marker4 ++ s4 ++
      marker5 ++ s5)
    (hu2 : uniqueOccAt marker2 rsp s1.length)
    (hu3 : uniqueOccAt marker3 rsp (s1.length + marker2.length + s2.length))
    (hu4 : uniqueOccAt marker4 rsp
      (s1.length + marker2.length + s2.length + marker3.length + s3.length))
    (hu5 : uniqueOccAt marker5 rsp
      (s1.length + marker2.length + s2.length + marker3.length + s3.length +
        marker4.length + s4.length)) :
    results_section rsp = s1 ∧ rec_section rsp = some s2 ∧
    summaryRaw rsp = some s3 ∧ scoreRaw rsp = some s4 ∧
    disclaimerRaw rsp = some s5 ∧
    results_section rsp ++ marker2 ++ ((rec_section rsp).getD []) ++
      marker3 ++ ((summaryRaw rsp).getD []) ++ marker4 ++
      ((scoreRaw rsp).getD []) ++ marker5 ++
      ((disclaimerRaw rsp).getD []) = rsp ∧
    summary rsp = some (pystrip s3) ∧
    score_text rsp = some (pyreplace ("Metric:".toList) [] (pystrip s4)) ∧
    disclaimer rsp = some (stripQuotes (pystrip s5)) := by
  obtain ⟨e1, e2, e3, e4, e5⟩ :=
    sections_eval_full rsp s1 s2 s3 s4 s5 hd hu2 hu3 hu4 hu5
  refine ⟨e1, e2, e3, e4, e5, ?_, ?_, ?_, ?_⟩
  · rw [e1, e2, e3, e4, e5]
    simp only [Option.getD_some]
    exact hd.symm
  · rw [summary, e3]
    rfl
  · rw [score_text, e4]
    rfl
  · rw [disclaimer, e5]
    rfl

/-- C3 witness. -/
theorem splitter_roundtrip_raw_witness :
    results_section (("A**2. Recommendations**B**3. Summary**C**4. Final Score**D**5. Medical Disclaimer**E").toList) =
      "A".toList ∧
    rec_section (("A**2. Recommendations**B**3. Summary**C**4. Final Score**D**5. Medical Disclaimer**E").toList) =
      some ("B".toList) := by
  have h := splitter_roundtrip_raw
    (("A**2. Recommendations**B**3. Summary**C**4. Final Score**D**5. Medical Disclaimer**E").toList)
    ("A".toList) ("B".toList) ("C".toList) ("D".toList) ("E".toList)
    (by decide) (by decide) (by decide) (by decide) (by decide)
  exact ⟨h.1, h.2.1⟩

/-- C2 (counterexample): with `**2. Recommendations**` absent, the
section-2 slice fails (`none`) but the section-1 slice — which also
depends on that marker — does not fail: it returns the entire response,
section headers and all (the `**3. Summary**` marker is inside it).  So
it is not the case that exactly the sections whose slicing depends on
the missing marker fail. -/
theorem partial_failure_counterexample :
    rec_section (("A**3. Summary**C**4. Final Score**D**5. Medical Disclaimer**E").toList) = none ∧
    results_section (("A**3. Summary**C**4. Final Score**D**5. Medical Disclaimer**E").toList) =
      ("A**3. Summary**C**4. Final Score**D**5. Medical Disclaimer**E").toList ∧
    pyin marker3
      (results_section (("A**3. Summary**C**4. Final Score**D**5. Medical Disclaimer**E").toList)) = true := by
  exact ⟨by decide, by decide, by decide⟩

/-- C2 (amended): for a response with exactly one marker absent (the
other three occurring exactly once, in order), only the slicing that
indexes `[1]` on the missing marker raises, and the caller's `except`
reduces that section to its bare heading — the document still carries
all five headings.  A slicing that uses the missing marker only as a
right delimiter does not fail but silently returns text extending past
the intended boundary (for a missing `**2. Recommendations**` the
results slice is the whole response; for a missing `**3. Summary**` the
recommendations slice runs to the end; for a missing `**4. Final Score**`
the summary slice runs to the end; for a missing
`**5. Medical Disclaimer**` the score slice runs to the end).  All
sections whose slicing does not mention the missing marker extract
correctly. -/
theorem partial_failure_isolation :
    (∀ rsp t s3 s4 s5 : List Char,
      rsp = t ++ marker3 ++ s3 ++ marker4 ++ s4 ++ marker5 ++ s5 →
      absentFrom marker2 rsp →
      uniqueOccAt marker3 rsp t.length →
      uniqueOccAt marker4 rsp (t.length + marker3.length + s3.length) →
      uniqueOccAt marker5 rsp
        (t.length + marker3.length + s3.length + marker4.length + s4.length) →
      rec_section rsp = none ∧ sec2Blocks rsp = [Block.heading h2Title] ∧
      results_section rsp = rsp ∧ summaryRaw rsp = some s3 ∧
      scoreRaw rsp = some s4 ∧ disclaimerRaw rsp = some s5 ∧
      (buildBlocks rsp).filterMap headingOf =
        [h1Title, h2Title, h3Title, h4Title, h5Title]) ∧
    (∀ rsp s1 t s4 s5 : List Char,
      rsp = s1 ++ marker2 ++ t ++ marker4 ++ s4 ++ marker5 ++ s5 →
      uniqueOccAt marker2 rsp s1.length →
      absentFrom marker3 rsp →
      uniqueOccAt marker4 rsp (s1.length + marker2.length + t.length) →
      uniqueOccAt marker5 rsp
        (s1.length + marker2.length + t.length + marker4.length + s4.length) →
      summaryRaw rsp = none ∧ sec3Blocks rsp = [Block.heading h3Title] ∧
      results_section rsp = s1 ∧
      rec_section rsp = some (t ++ marker4 ++ (s4 ++ marker5 ++ s5)) ∧
      scoreRaw rsp = some s4 ∧ disclaimerRaw rsp = some s5 ∧
      (buildBlocks rsp).filterMap headingOf =
        [h1Title, h2Title, h3Title, h4Title, h5Title]) ∧
    (∀ rsp s1 s2 t s5 : List Char,
      rsp = s1 ++ marker2 ++ s2 ++ marker3 ++ t ++ marker5 ++ s5 →
      uniqueOccAt marker2 rsp s1.length →
      uniqueOccAt marker3 rsp (s1.length + marker2.length + s2.length) →
      absentFrom marker4 rsp →
      uniqueOccAt marker5 rsp
        (s1.length + marker2.length + s2.length + marker3.length + t.length) →
      scoreRaw rsp = none ∧ sec4Blocks rsp = [Block.heading h4Title] ∧
      results_section rsp = s1 ∧ rec_section rsp = some s2 ∧
      summaryRaw rsp = some (t ++ marker5 ++ s5) ∧
      disclaimerRaw rsp = some s5 ∧
      (buildBlocks rsp).filterMap headingOf =
        [h1Title, h2Title, h3Title, h4Title, h5Title]) ∧
    (∀ rsp s1 s2 s3 t : List Char,
      rsp = s1 ++ marker2 ++ s2 ++ marker3 ++ s3 ++ marker4 ++ t →
      uniqueOccAt marker2 rsp s1.length →
      uniqueOccAt marker3 rsp (s1.length + marker2.length + s2.length) →
      uniqueOccAt marker4 rsp
        (s1.length + marker2.length + s2.length + marker3.length + s3.length) →
      absentFrom marker5 rsp →
      disclaimerRaw rsp = none ∧ sec5Blocks rsp = [Block.heading h5Title] ∧
      results_section rsp = s1 ∧ rec_section rsp = some s2 ∧
      summaryRaw rsp = some s3 ∧ scoreRaw rsp = some t ∧
      (buildBlocks rsp).filterMap headingOf =
        [h1Title, h2Title, h3Title, h4Title, h5Title]) := by
  refine ⟨?_, ?_, ?_, ?_⟩
  · intro rsp t s3 s4 s5 hd ha2 hu3 hu4 hu5
    obtain ⟨e1, e2, e3, e4, e5⟩ := sections_eval_no2 rsp t s3 s4 s5 hd ha2 hu3 hu4 hu5
    exact ⟨e2, sec2Blocks_of_none rsp e2, e1, e3, e4, e5,
      buildBlocks_headings rsp⟩
  · intro rsp s1 t s4 s5 hd hu2 ha3 hu4 hu5
    obtain ⟨e1, e2, e3, e4, e5⟩ := sections_eval_no3 rsp s1 t s4 s5 hd hu2 ha3 hu4 hu5
    exact ⟨e3, sec3Blocks_of_none rsp e3, e1, e2, e4, e5,
      buildBlocks_headings rsp⟩
  · intro rsp s1 s2 t s5 hd hu2 hu3 ha4 hu5
    obtain ⟨e1, e2, e3, e4, e5⟩ := sections_eval_no4 rsp s1 s2 t s5 hd hu2 hu3 ha4 hu5
    exact ⟨e4, sec4Blocks_of_none rsp e4, e1, e2, e3, e5,
      buildBlocks_headings rsp⟩
  · intro rsp s1 s2 s3 t hd hu2 hu3 hu4 ha5
    obtain ⟨e1, e2, e3, e4, e5⟩ := sections_eval_no5 rsp s1 s2 s3 t hd hu2 hu3 hu4 ha5
    exact ⟨e5, sec5Blocks_of_none rsp e5, e1, e2, e3, e4,
      buildBlocks_headings rsp⟩

/-- C2 witness: one concrete response for each missing-marker scenario. -/
theorem partial_failure_isolation_witness :
    rec_section (("A**3. Summary**C**4. Final Score**D**5. Medical Disclaimer**E").toList) = none ∧
    summaryRaw (("A**2. Recommendations**B**4. Final Score**D**5. Medical Disclaimer**E").toList) = none ∧
    scoreRaw (("A**2. Recommendations**B**3. Summary**C**5. Medical Disclaimer**E").toList) = none ∧
    disclaimerRaw (("A**2. Recommendations**B**3. Summary**C**4. Final Score**D").toList) = none := by
  refine ⟨?_, ?_, ?_, ?_⟩
  · exact (partial_failure_isolation.1
      (("A**3. Summary**C**4. Final Score**D**5. Medical Disclaimer**E").toList)
      ("A".toList) ("C".toList) ("D".toList) ("E".toList)
      (by decide) (by decide) (by decide) (by decide) (by decide)).1
  · exact (partial_failure_isolation.2.1
      (("A**2. Recommendations**B**4. Final Score**D**5. Medical Disclaimer**E").toList)
      ("A".toList) ("B".toList) ("D".toList) ("E".toList)
      (by decide) (by decide) (by decide) (by decide) (by decide)).1
  · exact (partial_failure_isolation.2.2.1
      (("A**2. Recommendations**B**3. Summary**C**5. Medical Disclaimer**E").toList)
      ("A".toList) ("B".toList) ("C".toList) ("E".toList)
      (by decide) (by decide) (by decide) (by decide) (by decide)).1
  · exact (partial_failure_isolation.2.2.2
      (("A**2. Recommendations**B**3. Summary**C**4. Final Score**D").toList)
      ("A".toList) ("B".toList) ("C".toList) ("D".toList)
      (by decide) (by decide) (by decide) (by decide) (by decide)).1

/-- C4 (counterexample): a whitespace-only chunk (an `"Indicator:"`
immediately followed by a newline and another `"Indicator:"`) makes
`lines[0]` raise; the loop aborts, and despite two `"Indicator:"`
occurrences no record at all is produced. -/
theorem record_extraction_counterexample :
    (pysplit indicatorTok (("Indicator:\nIndicator: B\nYour Result: 2").toList)).length - 1 = 2 ∧
    (extractTests (testsOf (("Indicator:\nIndicator: B\nYour Result: 2").toList))).1 = [] ∧
    (extractTests (testsOf (("Indicator:\nIndicator: B\nYour Result: 2").toList))).2 = true := by
  exact ⟨by decide, by decide, by decide⟩

/-- C4 (amended): extraction splits on `"Indicator:"` and discards the
preamble; provided every remaining chunk's stripped text has at least
one line, it produces one record per chunk, in order and without error;
the indicator is the chunk's stripped first line; each field comes from
the first line containing its token, as the stripped text after that
line's first colon; a missing field yields the empty string.  (A
whitespace-only chunk instead raises, aborting the remaining records —
see the counterexample.) -/
theorem record_extraction_spec :
    (∀ sec : List Char, (∀ t ∈ testsOf sec, pysplitlines (pystrip t) ≠ []) →
      (extractTests (testsOf sec)).2 = false ∧
      (testsOf sec).map parseTest = (extractTests (testsOf sec)).1.map some ∧
      (extractTests (testsOf sec)).1.length =
        (pysplit indicatorTok sec).length - 1) ∧
    (∀ (test l0 : List Char) (rest : List (List Char)),
      pysplitlines (pystrip test) = l0 :: rest →
      parseTest test = some
        { indicator := pystrip l0
          result := fieldOf yourResultTok (l0 :: rest)
          normal_range := fieldOf normalRangeTok (l0 :: rest)
          comment := fieldOf commentTok (l0 :: rest) }) ∧
    (∀ (needle : List Char) (pre : List (List Char)) (l : List Char)
        (post : List (List Char)),
      pyin needle l = true → (∀ l2 ∈ pre, pyin needle l2 = false) →
      fieldOf needle (pre ++ l :: post) =
        pystrip ((pysplit1 [':'] l).getD 1 [])) ∧
    (∀ a b : List Char, (∀ c ∈ a, c ≠ ':') →
      (pysplit1 [':'] (a ++ ':' :: b)).getD 1 [] = b) ∧
    (∀ (needle : List Char) (lines : List (List Char)),
      (∀ l ∈ lines, pyin needle l = false) → fieldOf needle lines = []) := by
  refine ⟨?_, parseTest_some, fieldOf_of_first, ?_, fieldOf_of_missing⟩
  · intro sec hn
    have hp : ∀ t ∈ testsOf sec, parseTest t ≠ none := by
      intro t ht hc
      exact hn t ht ((parseTest_eq_none_iff t).mp hc)
    obtain ⟨h1, h2⟩ := extractTests_total (testsOf sec) hp
    refine ⟨h1, h2, ?_⟩
    have hlen := congrArg List.length h2
    simp only [List.length_map] at hlen
    rw [← hlen, testsOf, List.length_tail]
  · intro a b ha
    rw [pysplit1_colon a b ha]
    rfl

/-- C4 witness. -/
theorem record_extraction_spec_witness :
    (extractTests (testsOf (("xIndicator: A\nYour Result: 1").toList))).1.length =
      (pysplit indicatorTok (("xIndicator: A\nYour Result: 1").toList)).length - 1 ∧
    parseTest ((" A\nYour Result: 1").toList) = some
      { indicator := pystrip (("A").toList)
        result := fieldOf yourResultTok (("A").toList :: [("Your Result: 1").toList])
        normal_range := fieldOf normalRangeTok (("A").toList :: [("Your Result: 1").toList])
        comment := fieldOf commentTok (("A").toList :: [("Your Result: 1").toList]) } ∧
    fieldOf yourResultTok ([("abc").toList] ++ ("Your Result: 42").toList :: []) =
      pystrip ((pysplit1 [':'] (("Your Result: 42").toList)).getD 1 []) ∧
    (pysplit1 [':'] ((("Your Result").toList) ++ ':' :: ((" 42").toList))).getD 1 [] =
      (" 42").toList ∧
    fieldOf yourResultTok [("x").toList] = [] := by
  refine ⟨?_, ?_, ?_, ?_, ?_⟩
  · exact (record_extraction_spec.1 _ (by decide)).2.2
  · exact record_extraction_spec.2.1 _ _ _ (by decide)
  · exact record_extraction_spec.2.2.1 yourResultTok _ _ _ (by decide) (by decide)
  · exact record_extraction_spec.2.2.2.1 _ _ (by decide)
  · exact record_extraction_spec.2.2.2.2 yourResultTok _ (by decide)

/-- C5: per line (after stripping): a line containing `"To Improve"`
activates the `to_improve` bucket; otherwise one containing
`"To Maintain"` activates `to_maintain`; otherwise a line starting with
the glyph `*` is appended (glyph stripped) to the active bucket — and
dropped when no bucket is active yet; every other line is ignored.
Consequently a marker-free prefix contributes nothing to either bucket,
and after a marker line a marker-free run contributes exactly its bullet
texts to that marker's bucket. -/
theorem bullet_extraction_spec :
    (∀ (l : List Char) (rest imp mnt : List (List Char)) (cur : Option Bucket),
      recLoop (l :: rest) imp mnt cur =
        match lineMarker l with
        | some b => recLoop rest imp mnt (some b)
        | none =>
          if isBulletLine l then
            match cur with
            | some Bucket.improve => recLoop rest (imp ++ [bulletText l]) mnt cur
            | some Bucket.maintain => recLoop rest imp (mnt ++ [bulletText l]) cur
            | none => recLoop rest imp mnt cur
          else recLoop rest imp mnt cur) ∧
    (∀ pre rest : List (List Char), (∀ l ∈ pre, lineMarker l = none) →
      recExtract (pre ++ rest) = recExtract rest) ∧
    (∀ (pre : List (List Char)) (l : List Char) (post : List (List Char)),
      lineMarker l = some Bucket.improve →
      (∀ l2 ∈ post, lineMarker l2 = none) →
      recExtract (pre ++ l :: post) =
        ((recExtract pre).1 ++ bulletsOf post, (recExtract pre).2)) ∧
    (∀ (pre : List (List Char)) (l : List Char) (post : List (List Char)),
      lineMarker l = some Bucket.maintain →
      (∀ l2 ∈ post, lineMarker l2 = none) →
      recExtract (pre ++ l :: post) =
        ((recExtract pre).1, (recExtract pre).2 ++ bulletsOf post)) := by
  refine ⟨recLoop_cons, ?_, ?_, ?_⟩
  · intro pre rest h
    unfold recExtract
    rw [recLoop_append pre rest [] [] none, curAfter_no_marker pre h none,
      (recLoop_no_marker pre h).2.2]
  · intro pre l post hm hpost
    unfold recExtract
    rw [recLoop_append pre (l :: post) [] [] none]
    simp only [recLoop_cons, hm]
    rw [recLoop_acc post _ _ (some Bucket.improve),
      (recLoop_no_marker post hpost).1]
    simp
  · intro pre l post hm hpost
    unfold recExtract
    rw [recLoop_append pre (l :: post) [] [] none]
    simp only [recLoop_cons, hm]
    rw [recLoop_acc post _ _ (some Bucket.maintain),
      (recLoop_no_marker post hpost).2.1]
    simp

/-- C5 witness. -/
theorem bullet_extraction_spec_witness :
    recExtract ([("junk").toList, ("* dropped").toList] ++ (" To Improve").toList ::
        [("* kept").toList, ("note").toList]) =
      ((recExtract [("junk").toList, ("* dropped").toList]).1 ++
        bulletsOf [("* kept").toList, ("note").toList],
       (recExtract [("junk").toList, ("* dropped").toList]).2) ∧
    recExtract ([("junk").toList, ("* dropped").toList] ++ [("* also dropped").toList]) =
      recExtract [("* also dropped").toList] ∧
    recExtract ([] ++ (" To Maintain").toList :: [("* m1").toList]) =
      ((recExtract []).1, (recExtract []).2 ++ bulletsOf [("* m1").toList]) := by
  refine ⟨?_, ?_, ?_⟩
  · exact bullet_extraction_spec.2.2.1 _ _ _ (by decide) (by decide)
  · exact bullet_extraction_spec.2.1 _ _ (by decide)
  · exact bullet_extraction_spec.2.2.2 _ _ _ (by decide) (by decide)

/-- C10: every section heading is drawn unconditionally, before that
section's extraction is attempted: whatever the response text, the
rendered block sequence contains exactly the five headings in order,
each section's block run starts with its heading, and when a section's
slicing fails the section reduces to the bare heading — only the body is
omitted. -/
theorem headings_always_drawn :
    (∀ rsp : List Char, (buildBlocks rsp).filterMap headingOf =
      [h1Title, h2Title, h3Title, h4Title, h5Title]) ∧
    (∀ rsp : List Char, (sec1Blocks rsp).head? = some (Block.heading h1Title)) ∧
    (∀ rsp : List Char, (sec2Blocks rsp).head? = some (Block.heading h2Title)) ∧
    (∀ rsp : List Char, (sec3Blocks rsp).head? = some (Block.heading h3Title)) ∧
    (∀ rsp : List Char, (sec4Blocks rsp).head? = some (Block.heading h4Title)) ∧
    (∀ rsp : List Char, (sec5Blocks rsp).head? = some (Block.heading h5Title)) ∧
    (∀ rsp : List Char, rec_section rsp = none →
      sec2Blocks rsp = [Block.heading h2Title]) ∧
    (∀ rsp : List Char, summaryRaw rsp = none →
      sec3Blocks rsp = [Block.heading h3Title]) ∧
    (∀ rsp : List Char, scoreRaw rsp = none →
      sec4Blocks rsp = [Block.heading h4Title]) ∧
    (∀ rsp : List Char, disclaimerRaw rsp = none →
      sec5Blocks rsp = [Block.heading h5Title]) :=
  ⟨buildBlocks_headings, fun _ => rfl, fun _ => rfl, fun _ => rfl,
   fun _ => rfl, fun _ => rfl, sec2Blocks_of_none, sec3Blocks_of_none,
   sec4Blocks_of_none, sec5Blocks_of_none⟩

/-- C10 witness: the empty response has no markers, so every slicing
with `[1]` fails, yet all five headings are drawn. -/
theorem headings_always_drawn_witness :
    (buildBlocks []).filterMap headingOf =
      [h1Title, h2Title, h3Title, h4Title, h5Title] ∧
    sec2Blocks [] = [Block.heading h2Title] ∧
    sec3Blocks [] = [Block.heading h3Title] ∧
    sec4Blocks [] = [Block.heading h4Title] ∧
    sec5Blocks [] = [Block.heading h5Title] :=
  ⟨headings_always_drawn.1 [],
   headings_always_drawn.2.2.2.2.2.2.1 [] (by decide),
   headings_always_drawn.2.2.2.2.2.2.2.1 [] (by decide),
   headings_always_drawn.2.2.2.2.2.2.2.2.1 [] (by decide),
   headings_always_drawn.2.2.2.2.2.2.2.2.2 [] (by decide)⟩

/-- The spec's end-to-end example RawResponse (Arabic written as
code-point escapes). -/
def exampleRsp : List Char :=
  ("Indicator: Hemoglobin\nYour Result: 13.5\nNormal Range: 13-17\nComment: \u0637\u0628\u064a\u0639\u064a\n**2. Recommendations**\n To Improve\n* \u0643\u0644 \u0623\u0643\u062b\u0631\n To Maintain\n* \u062d\u0627\u0641\u0638 \u0639\u0644\u0649 \u0627\u0644\u0646\u0638\u0627\u0645\n**3. Summary**\nAll good.\n**4. Final Score**\nYour Health Score: 90\nMetric: \u0645\u0645\u062a\u0627\u0632\n**5. Medical Disclaimer**\n\"\u062a\u0646\u0648\u064a\u0647 \u0637\u0628\u064a\"").toList

/-- The same response with the `**5. Medical Disclaimer**` marker
deleted. -/
def exampleRspNoDisc : List Char :=
  ("Indicator: Hemoglobin\nYour Result: 13.5\nNormal Range: 13-17\nComment: \u0637\u0628\u064a\u0639\u064a\n**2. Recommendations**\n To Improve\n* \u0643\u0644 \u0623\u0643\u062b\u0631\n To Maintain\n* \u062d\u0627\u0641\u0638 \u0639\u0644\u0649 \u0627\u0644\u0646\u0638\u0627\u0645\n**3. Summary**\nAll good.\n**4. Final Score**\nYour Health Score: 90\nMetric: \u0645\u0645\u062a\u0627\u0632\n\n\"\u062a\u0646\u0648\u064a\u0647 \u0637\u0628\u064a\"").toList

/-- C7: on the spec's end-to-end example the pipeline yields exactly one
TestRecord (Hemoglobin / 13.5 / 13-17 / Arabic comment) with no
extraction error, the two one-element bullet buckets, summary
`"All good."`, a two-line score block, and the disclaimer with its
surrounding quotes stripped; and with the Disclaimer marker deleted the
disclaimer slice fails but the document is still rendered with all five
section headings — no unhandled exception. -/
theorem end_to_end_example :
    (extractTests (testsOf (results_section exampleRsp))).1 =
      [{ indicator := ("Hemoglobin").toList
         result := ("13.5").toList
         normal_range := ("13-17").toList
         comment := ("\u0637\u0628\u064a\u0639\u064a").toList }] ∧
    (extractTests (testsOf (results_section exampleRsp))).2 = false ∧
    (rec_section exampleRsp).map (fun s => recExtract (pysplitlines s)) =
      some ([("\u0643\u0644 \u0623\u0643\u062b\u0631").toList], [("\u062d\u0627\u0641\u0638 \u0639\u0644\u0649 \u0627\u0644\u0646\u0638\u0627\u0645").toList]) ∧
    summary exampleRsp = some (("All good.").toList) ∧
    (score_text exampleRsp).map (fun s => (pysplitlines s).length) = some 2 ∧
    disclaimer exampleRsp = some (("\u062a\u0646\u0648\u064a\u0647 \u0637\u0628\u064a").toList) ∧
    (buildBlocks exampleRsp).filterMap headingOf =
      [h1Title, h2Title, h3Title, h4Title, h5Title] ∧
    disclaimer exampleRspNoDisc = none ∧
    sec5Blocks exampleRspNoDisc = [Block.heading h5Title] ∧
    (buildBlocks exampleRspNoDisc).filterMap headingOf =
      [h1Title, h2Title, h3Title, h4Title, h5Title] := by
  refine ⟨by decide, by decide, by decide, by decide, by decide, by decide,
    buildBlocks_headings exampleRsp, by decide, ?_, 
    buildBlocks_headings exampleRspNoDisc⟩
  exact sec5Blocks_of_none exampleRspNoDisc (by decide)

end ClinicalReport
